import Mathlib

/-!
# Verification of the video upload handler (`server.js`)

A shallow embedding of the request handler `app.post('/process-upload')` of
`server.js` and of the helpers it calls (`getVideoDuration`, `buildAssetId`),
together with the JavaScript built-ins the handler relies on (`parseFloat`,
`Number::toString`, `String.prototype.trim`, `split`, `Math.max`, `Math.min`,
`||`).  External collaborators (ffprobe, ffmpeg, the music download, the PUT to
the upload URL, the clock, the file system) are explicit outcome records.
-/

namespace Feednly

/-! ## JavaScript numbers -/

/-- A JavaScript Number.  A finite binary64 value is carried as the exact
rational it denotes.  The two zeros are identified: the handler only tests
numbers for truthiness and prints them, and `-0` behaves like `+0` in both
(`-0 || 0` is `0`, `String(-0)` is `'0'`). -/
inductive JSNum
  | nan
  | posInf
  | negInf
  | fin (q : ℚ)
  deriving DecidableEq

/-- Round the fraction `num / den` to the nearest natural number, ties to even. -/
def roundHalfEven (num den : Nat) : Nat :=
  let f := num / den
  let r := num % den
  if 2 * r < den then f
  else if den < 2 * r then f + 1
  else if f % 2 = 0 then f else f + 1

/-- Number of digits of a natural number in the given base (`1` for `0`). -/
def digitCount (base n : Nat) : Nat := (Nat.toDigits base n).length

/-- The integer `e` with `2^e ≤ num / den < 2^(e+1)`, for positive `num`, `den`. -/
def floorLog2 (num den : Nat) : Int :=
  let e0 : Int := (digitCount 2 num : Int) - (digitCount 2 den : Int)
  if 0 ≤ e0 then (if den * 2 ^ e0.toNat ≤ num then e0 else e0 - 1)
  else (if den ≤ num * 2 ^ (-e0).toNat then e0 else e0 - 1)

/-- IEEE 754 binary64 round-to-nearest-even of the positive fraction
`num / den`: 53 significant bits, least exponent `-1074` (subnormals), and
`none` when the rounded value reaches `2^1024` (overflow to infinity). -/
def roundBinary64 (num den : Nat) : Option ℚ :=
  let e := max (floorLog2 num den) (-1022)
  let qe := e - 52
  if 0 ≤ qe then
    let v := roundHalfEven num (den * 2 ^ qe.toNat) * 2 ^ qe.toNat
    if 2 ^ 1024 ≤ v then none else some (v : ℚ)
  else
    some (mkRat (roundHalfEven (num * 2 ^ (-qe).toNat) den : Nat) (2 ^ (-qe).toNat))

/-- The Number value of the signed decimal `mant × 10^exp10`. -/
def numberOfDecimal (neg : Bool) (mant : Nat) (exp10 : Int) : JSNum :=
  if mant = 0 then .fin 0
  else
    let r := if 0 ≤ exp10 then roundBinary64 (mant * 10 ^ exp10.toNat) 1
             else roundBinary64 mant (10 ^ (-exp10).toNat)
    match r with
    | none => if neg then .negInf else .posInf
    | some q => .fin (if neg then -q else q)

/-! ## JavaScript strings -/

/-- ECMAScript `WhiteSpace` and `LineTerminator` code points. -/
def isJSWhiteSpace (c : Char) : Bool :=
  let n := c.toNat
  n == 0x09 || n == 0x0A || n == 0x0B || n == 0x0C || n == 0x0D || n == 0x20
    || n == 0xA0 || n == 0x1680 || (0x2000 ≤ n && n ≤ 0x200A) || n == 0x2028
    || n == 0x2029 || n == 0x202F || n == 0x205F || n == 0x3000 || n == 0xFEFF

/-- The method `String.prototype.trim` on a list of characters. -/
def jsTrim (cs : List Char) : List Char :=
  ((cs.dropWhile isJSWhiteSpace).reverse.dropWhile isJSWhiteSpace).reverse

/-- Value of a run of decimal digits. -/
def digitsValue (ds : List Char) : Nat :=
  ds.foldl (fun acc c => acc * 10 + (c.toNat - 48)) 0

/-- The optional `ExponentPart` of a `StrDecimalLiteral`: `e` or `E`, an
optional sign and at least one digit; `0` when there is no such part. -/
def parseExponent (cs : List Char) : Int :=
  match cs with
  | [] => 0
  | c :: rest =>
    if c = 'e' ∨ c = 'E' then
      match rest with
      | '-' :: r => match r.span Char.isDigit with
        | ([], _) => 0
        | (ds, _) => -(digitsValue ds : Int)
      | '+' :: r => (digitsValue (r.span Char.isDigit).1 : Int)
      | r => (digitsValue (r.span Char.isDigit).1 : Int)
    else 0

/-- The unsigned part of a `StrDecimalLiteral` prefix: `Infinity`, or digits
with an optional fraction and exponent, or `.digits`; `NaN` when the text
starts with none of these. -/
def parseUnsigned (neg : Bool) (cs : List Char) : JSNum :=
  if "Infinity".data.isPrefixOf cs then (if neg then .negInf else .posInf)
  else
    let (intDs, r1) := cs.span Char.isDigit
    let (fracDs, r2) := match r1 with
      | '.' :: r => r.span Char.isDigit
      | _ => ([], r1)
    if intDs = [] ∧ fracDs = [] then .nan
    else numberOfDecimal neg (digitsValue (intDs ++ fracDs))
      (parseExponent r2 - (fracDs.length : Int))

/-- The global `parseFloat`: skip leading white space, then read the longest
prefix that is a `StrDecimalLiteral`; `NaN` when there is none. -/
def parseFloat (s : String) : JSNum :=
  match s.data.dropWhile isJSWhiteSpace with
  | '-' :: r => parseUnsigned true r
  | '+' :: r => parseUnsigned false r
  | r => parseUnsigned false r

/-- The integer `n` with `10^(n-1) ≤ num / den < 10^n`, for positive `num`, `den`. -/
def decimalExponent (num den : Nat) : Int :=
  let n0 : Int := (digitCount 10 num : Int) - (digitCount 10 den : Int)
  if 0 ≤ n0 then (if num < den * 10 ^ n0.toNat then n0 else n0 + 1)
  else (if num * 10 ^ (-n0).toNat < den then n0 else n0 + 1)

/-- Does the decimal `s × 10^e` round to the binary64 value `q`? -/
def roundsTo (s : Nat) (e : Int) (q : ℚ) : Bool :=
  (if 0 ≤ e then roundBinary64 (s * 10 ^ e.toNat) 1 else roundBinary64 s (10 ^ (-e).toNat))
    == some q

/-- Search of `Number::toString` for the shortest digit string: for
`k = 1, 2, …` the `k`-digit integers next to `q / 10^(n-k)` are tried, and
of two that round to `q` the closer one (the even one on a tie) is taken.
Returns the digits and the decimal exponent `n`. -/
def shortestDigits (num den : Nat) (n : Int) (q : ℚ) : Nat → Nat → List Char × Int
  | 0, k => (Nat.toDigits 10 (if 0 ≤ (k : Int) - n then num * 10 ^ ((k : Int) - n).toNat / den
                              else num / (den * 10 ^ (n - (k : Int)).toNat)), n)
  | fuel + 1, k =>
    let e : Int := n - (k : Int)
    let numS := if 0 ≤ e then num else num * 10 ^ (-e).toNat
    let denS := if 0 ≤ e then den * 10 ^ e.toNat else den
    let lo := numS / denS
    let hi := lo + 1
    let r := numS % denS
    let okLo := roundsTo lo e q
    let okHi := roundsTo hi e q
    let pick (s : Nat) : List Char × Int :=
      if s = 10 ^ k then (['1'], n + 1) else (Nat.toDigits 10 s, n)
    if okLo && okHi then
      (if 2 * r < denS then pick lo
       else if denS < 2 * r then pick hi
       else if lo % 2 = 0 then pick lo else pick hi)
    else if okLo then pick lo
    else if okHi then pick hi
    else shortestDigits num den n q fuel (k + 1)

/-- The text `Number::toString` builds from the digits `ds` (`k` of them) and
the decimal exponent `n`. -/
def formatDigits (ds : List Char) (n : Int) : List Char :=
  let k : Int := ds.length
  if k ≤ n ∧ n ≤ 21 then ds ++ List.replicate (n - k).toNat '0'
  else if 0 < n ∧ n ≤ 21 then ds.take n.toNat ++ '.' :: ds.drop n.toNat
  else if -6 < n ∧ n ≤ 0 then '0' :: '.' :: (List.replicate (-n).toNat '0' ++ ds)
  else
    let e := n - 1
    let expo := (if 0 ≤ e then '+' else '-') :: Nat.toDigits 10 e.natAbs
    match ds with
    | [] => []
    | [d] => d :: 'e' :: expo
    | d :: rest => d :: '.' :: (rest ++ 'e' :: expo)

/-- The operation `Number::toString` (radix 10), as used by `String(x)` and by template
literals. -/
def numberToString (x : JSNum) : String :=
  match x with
  | .nan => "NaN"
  | .posInf => "Infinity"
  | .negInf => "-Infinity"
  | .fin q =>
    if q = 0 then "0"
    else
      let num := q.num.natAbs
      let den := q.den
      let n := decimalExponent num den
      let r := shortestDigits num den n |q| 17 1
      String.mk ((if q < 0 then ['-'] else []) ++ formatDigits r.1 r.2)

/-- The expression `x || 0` on a Number `x`: `NaN` and zero are falsy and give
`0`, every other Number is returned unchanged. -/
def jsOrZero (x : JSNum) : JSNum :=
  match x with
  | .nan => .fin 0
  | .fin q => if q = 0 then .fin 0 else .fin q
  | y => y

/-- The function `Math.min` on two Numbers. -/
def mathMin : JSNum → JSNum → JSNum
  | .nan, _ => .nan
  | _, .nan => .nan
  | .negInf, _ => .negInf
  | _, .negInf => .negInf
  | .posInf, y => y
  | x, .posInf => x
  | .fin a, .fin b => .fin (min a b)

/-- The function `Math.max` on two Numbers. -/
def mathMax : JSNum → JSNum → JSNum
  | .nan, _ => .nan
  | _, .nan => .nan
  | .posInf, _ => .posInf
  | _, .posInf => .posInf
  | .negInf, y => y
  | x, .negInf => x
  | .fin a, .fin b => .fin (max a b)

/-- The test `Number.isFinite` applied to a Number or `null` (`none`). -/
def numberIsFinite (x : Option JSNum) : Bool :=
  match x with
  | some (.fin _) => true
  | _ => false

/-- The call `s.split(sep)` for a one-character separator; the result is never empty. -/
def jsSplit (sep : Char) : List Char → List (List Char)
  | [] => [[]]
  | c :: cs =>
    if c = sep then [] :: jsSplit sep cs
    else match jsSplit sep cs with
      | [] => [[c]]
      | p :: ps => (c :: p) :: ps

/-! ## Helpers of `server.js` -/

/-- Argument list handed to `ffprobe` by `getVideoDuration`. -/
def probeArgs (inputPath : String) : List String :=
  ["-v", "error", "-select_streams", "v:0", "-show_entries", "format=duration",
   "-of", "default=nokey=1:noprint_wrappers=1", inputPath]

/-- The function `getVideoDuration`: `probe` is the standard output of `ffprobe` when it
exits with code 0 and `none` when the command fails (the `catch`).  The result
is the parsed duration when it is finite and `null` (`none`) otherwise. -/
def getVideoDuration (probe : Option String) : Option JSNum :=
  match probe with
  | none => none
  | some stdout =>
    let duration := parseFloat (String.mk (jsTrim stdout.data))
    if numberIsFinite (some duration) then some duration else none

/-- The function `buildAssetId`: `muxUploadUrl.split('/').pop().split('?')[0]`.  On a
string neither `split` nor `pop` throws, so the `catch` is never taken. -/
def buildAssetId (muxUploadUrl : String) : String :=
  String.mk (((jsSplit '?' ((jsSplit '/' muxUploadUrl.data).getLastD [])).headD []))

/-! ## The request and the outside world -/

/-- The text fields of the multipart form (`req.body`); `none` is a field
that was not sent (`undefined`). -/
structure FormBody where
  facingMode : Option String
  audioMode : Option String
  musicUrl : Option String
  musicStart : Option String
  musicVolume : Option String
  muxUploadUrl : Option String

/-- What the handler reads of the request: `req.file?.path` and `req.body`. -/
structure Request where
  file : Option String
  body : Option FormBody

/-- The constant `inputFile` (line 103); `undefined` is read as `''`, which
is falsy as well and is never used as a path. -/
def Request.inputFile (req : Request) : String := req.file.getD ""

/-- The field `facingMode` with its default (line 105). -/
def Request.facingMode (req : Request) : String :=
  (req.body.bind FormBody.facingMode).getD "environment"

/-- The field `audioMode` with its default (line 106). -/
def Request.audioMode (req : Request) : String :=
  (req.body.bind FormBody.audioMode).getD "original"

/-- The field `musicUrl` with its default (line 107). -/
def Request.musicUrl (req : Request) : String :=
  (req.body.bind FormBody.musicUrl).getD ""

/-- The field `musicStart` with its default (line 108). -/
def Request.musicStart (req : Request) : String :=
  (req.body.bind FormBody.musicStart).getD "0"

/-- The field `musicVolume` with its default (line 109). -/
def Request.musicVolume (req : Request) : String :=
  (req.body.bind FormBody.musicVolume).getD "1"

/-- The field `muxUploadUrl` with its default (line 110). -/
def Request.muxUploadUrl (req : Request) : String :=
  (req.body.bind FormBody.muxUploadUrl).getD ""

/-- Outcome of `downloadToFile(url, destPath)`. -/
inductive DownloadOutcome
  /-- The call `fetch(url)` rejects; nothing is written. -/
  | rejected (message : String)
  /-- The response fails `!res.ok || !res.body`: the handler throws `'music download failed'`. -/
  | badResponse
  /-- The `pipeline` rejects; the destination file may have been created. -/
  | streamFailed (message : String) (fileLeft : Bool)
  /-- The body was written to the destination file. -/
  | done
  deriving DecidableEq

/-- Outcome of `runFfmpeg(args)`: whether the exit code was 0, the text on
standard error, and whether the output file exists afterwards. -/
structure FfmpegOutcome where
  exitZero : Bool
  stderr : String
  outputWritten : Bool

/-- Outcome of the `PUT` to `muxUploadUrl`. -/
inductive PutOutcome
  /-- The read stream emits an error or `fetch` rejects. -/
  | rejected (message : String)
  /-- A response with this HTTP status arrived (`ok` is `200 ≤ status ≤ 299`). -/
  | response (status : Nat)

/-- Everything outside the handler that one request can observe. -/
structure World where
  /-- The directory `path.join(os.tmpdir(), 'uploads')`. -/
  uploadDir : String
  /-- Standard output of `ffprobe` on exit code 0, `none` when it fails. -/
  probe : Option String
  /-- The value of `path.extname(new URL(musicUrl).pathname)`, `none` when `new URL` throws. -/
  musicExtname : Option String
  /-- The value of `Date.now()` when the music file is named. -/
  nowMusic : Nat
  /-- The value of `Date.now()` when the output file is named. -/
  nowOutput : Nat
  download : DownloadOutcome
  ffmpeg : FfmpegOutcome
  put : PutOutcome
  /-- Paths on which `fs.unlinkSync` throws. -/
  unlinkFails : String → Bool

/-- Calls the handler makes to its collaborators, in order. -/
inductive Effect
  | ffprobe (args : List String)
  | download (url dest : String)
  | ffmpeg (args : List String)
  | put (url file : String)
  | unlink (path : String)
  deriving DecidableEq

/-- Body of the JSON response. -/
inductive Payload
  | error (message : String)
  | success (assetId : String)
  deriving DecidableEq

/-- The HTTP response (`res.json` without `res.status` answers 200). -/
structure Response where
  status : Nat
  payload : Payload
  deriving DecidableEq

/-- The value of `path.join(dir, name)` for a normalised directory and a plain file name. -/
def pathJoin (dir name : String) : String := dir ++ "/" ++ name

/-! ## Plan selection and the argument list (lines 133–134, 136, 149–216) -/

/-- The flag `shouldUploadOnly` of the handler. -/
def shouldUploadOnly (facingMode audioMode musicUrl : String) : Bool :=
  decide (facingMode = "environment") && decide (audioMode = "original") && !decide (musicUrl ≠ "")

/-- The flag `shouldMirrorOnly` of the handler. -/
def shouldMirrorOnly (facingMode audioMode musicUrl : String) : Bool :=
  decide (facingMode = "user") && decide (audioMode = "original") && !decide (musicUrl ≠ "")

/-- The flag `needsMusic` of the handler. -/
def needsMusic (audioMode : String) : Bool :=
  decide (audioMode = "music") || decide (audioMode = "music+original")

/-- The three branches of the `if / else if / else` at lines 149–157, under
the names the specification gives them. -/
inductive PlanCase
  | PassThrough
  | MirrorOnly
  | FullTransform
  deriving DecidableEq

/-- Which branch of the `if / else if / else` at lines 149–157 is taken. -/
def planCase (facingMode audioMode musicUrl : String) : PlanCase :=
  if shouldUploadOnly facingMode audioMode musicUrl then .PassThrough
  else if shouldMirrorOnly facingMode audioMode musicUrl then .MirrorOnly
  else .FullTransform

/-- The expression `Math.max(0, Math.min(1, parseFloat(musicVolume) || 0))`. -/
def volumeValue (musicVolume : String) : JSNum :=
  mathMax (.fin 0) (mathMin (.fin 1) (jsOrZero (parseFloat musicVolume)))

/-- The expression `String(parseFloat(musicStart) || 0)`. -/
def musicStartArg (musicStart : String) : String :=
  numberToString (jsOrZero (parseFloat musicStart))

/-- The template `atrim=0:D,asetpts=N/SR/TB` when `Number.isFinite(duration)`,
and `asetpts=N/SR/TB` otherwise. -/
def trimFilter (duration : Option JSNum) : String :=
  match duration with
  | some d =>
    if numberIsFinite (some d) then "atrim=0:" ++ numberToString d ++ ",asetpts=N/SR/TB"
    else "asetpts=N/SR/TB"
  | none => "asetpts=N/SR/TB"

/-- Filter graph of the `music` branch. -/
def musicFilter (musicVolume : String) (duration : Option JSNum) : String :=
  "[1:a]volume=" ++ numberToString (volumeValue musicVolume) ++ "[ma];[ma]"
    ++ trimFilter duration ++ "[a]"

/-- Filter graph of the `music+original` branch. -/
def mixFilter (musicVolume : String) : String :=
  "[1:a]volume=" ++ numberToString (volumeValue musicVolume)
    ++ "[ma];[0:a][ma]amix=inputs=2:duration=first:dropout_transition=2[a]"

/-- The array `baseVideoArgs`: `['-vf', 'hflip']` when `shouldFlip`, else empty. -/
def baseVideoArgs (facingMode : String) : List String :=
  let videoFilters := if facingMode = "user" then "hflip" else ""
  if videoFilters ≠ "" then ["-vf", videoFilters] else []

/-- What the branch at lines 149–216 leaves behind: the array `args` and the
variable `outputPath`, or the early `400` for an unknown `audioMode`. -/
inductive PlanResult
  | built (args : List String) (outputPath : String)
  | invalidAudioMode
  deriving DecidableEq

/-- The body of the `else` branch at lines 158–215 (`args` starts as `['-y']`). -/
def fullTransform (outputPath inputFile facingMode audioMode musicStart musicVolume : String)
    (duration : Option JSNum) (musicPath : String) : PlanResult :=
  if audioMode ∉ ["original", "mute", "music", "music+original"] then .invalidAudioMode
  else
    let inputs :=
      if audioMode = "music" ∨ audioMode = "music+original" then
        ["-i", inputFile, "-ss", musicStartArg musicStart, "-i", musicPath]
      else ["-i", inputFile]
    let args := "-y" :: inputs
    if audioMode = "original" then
      .built (args
        ++ (if facingMode = "user" then
              baseVideoArgs facingMode
                ++ ["-c:v", "libx264", "-preset", "veryfast", "-crf", "20", "-c:a", "copy"]
            else ["-c:v", "copy", "-c:a", "copy"])
        ++ ["-movflags", "+faststart", outputPath]) outputPath
    else if audioMode = "mute" then
      .built (args
        ++ (baseVideoArgs facingMode ++ ["-map", "0:v:0", "-an"])
        ++ (if facingMode = "user" then ["-c:v", "libx264", "-preset", "veryfast", "-crf", "20"]
            else ["-c:v", "copy"])
        ++ ["-movflags", "+faststart", outputPath]) outputPath
    else if audioMode = "music" then
      .built (args
        ++ ["-filter_complex", musicFilter musicVolume duration, "-map", "0:v:0", "-map", "[a]"]
        ++ baseVideoArgs facingMode
        ++ ["-shortest", "-c:v", "libx264", "-preset", "veryfast", "-crf", "20", "-c:a", "aac",
            "-movflags", "+faststart", outputPath]) outputPath
    else if audioMode = "music+original" then
      .built (args
        ++ ["-filter_complex", mixFilter musicVolume, "-map", "0:v:0", "-map", "[a]"]
        ++ baseVideoArgs facingMode
        ++ ["-shortest", "-c:v", "libx264", "-preset", "veryfast", "-crf", "20", "-c:a", "aac",
            "-movflags", "+faststart", outputPath]) outputPath
    else .built args outputPath

/-- Lines 136 and 149–216: the array `args` and the variable `outputPath`
after the `if / else if / else`; `newOutputPath` is the value of
`path.join(uploadDir, 'output-' + Date.now() + '.mp4')`. -/
def buildPlan (newOutputPath inputFile facingMode audioMode musicUrl musicStart musicVolume : String)
    (duration : Option JSNum) (musicPath : String) : PlanResult :=
  match planCase facingMode audioMode musicUrl with
  | .PassThrough => .built ["-y"] ""
  | .MirrorOnly =>
    .built (["-y", "-i", inputFile]
      ++ ["-vf", "hflip", "-c:v", "libx264", "-preset", "veryfast", "-crf", "20", "-c:a", "copy"]
      ++ ["-movflags", "+faststart", newOutputPath]) newOutputPath
  | .FullTransform =>
    fullTransform newOutputPath inputFile facingMode audioMode musicStart musicVolume
      duration musicPath

/-! ## The handler `app.post('/process-upload')` -/

/-- The file extension chosen at lines 139–144:
`path.extname(new URL(musicUrl).pathname) || '.mp3'`, and `'.mp3'` when
`new URL` throws. -/
def musicExt (extname : Option String) : String :=
  match extname with
  | some e => if e = "" then ".mp3" else e
  | none => ".mp3"

/-- The path given to `musicPath` at line 145:
`path.join(uploadDir, 'music-' + Date.now() + ext)`. -/
def newMusicPath (w : World) : String :=
  pathJoin w.uploadDir ("music-" ++ Nat.repr w.nowMusic ++ musicExt w.musicExtname)

/-- The path given to `outputPath` at lines 154 and 167:
`path.join(uploadDir, 'output-' + Date.now() + '.mp4')`. -/
def newOutputPath (w : World) : String :=
  pathJoin w.uploadDir ("output-" ++ Nat.repr w.nowOutput ++ ".mp4")

/-- The call `downloadToFile(url, destPath)`: the error thrown, if any, and
the files present afterwards. -/
def downloadToFile (o : DownloadOutcome) (destPath : String) (files : List String) :
    Option String × List String :=
  match o with
  | .rejected m => (some m, files)
  | .badResponse => (some "music download failed", files)
  | .streamFailed m fileLeft => (some m, if fileLeft then destPath :: files else files)
  | .done => (none, destPath :: files)

/-- The call `runFfmpeg(args)`: the error thrown, if any, and the files
present afterwards. -/
def runFfmpeg (o : FfmpegOutcome) (outputPath : String) (files : List String) :
    Option String × List String :=
  (if o.exitZero then none else some ("ffmpeg failed: " ++ o.stderr),
   if o.outputWritten then outputPath :: files else files)

/-- The upload at lines 233–253: the error thrown, if any. -/
def putFile (o : PutOutcome) : Option String :=
  match o with
  | .rejected m => some m
  | .response status =>
    if 200 ≤ status ∧ status ≤ 299 then none
    else some ("Mux upload failed: " ++ Nat.repr status)

/-- The `catch` clause: status 500 with `error.message || 'processing failed'`. -/
def caught (message : String) : Response :=
  ⟨500, .error (if message = "" then "processing failed" else message)⟩

/-- State of a request when a block of the handler is left: the variables
`musicPath` and `outputPath`, the files in scratch storage, the calls made
so far and the response sent. -/
structure Run where
  musicPath : String
  outputPath : String
  files : List String
  effects : List Effect
  response : Response

/-- Lines 218–256: run ffmpeg unless `shouldUploadOnly`, check that the file
to upload exists, `PUT` it and answer. -/
def executeAndPublish (w : World) (files : List String) (effects : List Effect)
    (inputFile facingMode audioMode musicUrl muxUploadUrl musicPath : String)
    (args : List String) (outputPath : String) : Run :=
  let uploadOnly := shouldUploadOnly facingMode audioMode musicUrl
  let ran := if uploadOnly then (none, files) else runFfmpeg w.ffmpeg outputPath files
  let effects1 := if uploadOnly then effects else effects ++ [Effect.ffmpeg args]
  match ran with
  | (some m, files1) => ⟨musicPath, outputPath, files1, effects1, caught m⟩
  | (none, files1) =>
    let fileToUpload := if uploadOnly then inputFile else outputPath
    if fileToUpload ∉ files1 then
      ⟨musicPath, outputPath, files1, effects1, caught "Upload failed: output file was not created"⟩
    else
      let effects2 := effects1 ++ [Effect.put muxUploadUrl fileToUpload]
      match putFile w.put with
      | some m => ⟨musicPath, outputPath, files1, effects2, caught m⟩
      | none =>
        ⟨musicPath, outputPath, files1, effects2, ⟨200, .success (buildAssetId muxUploadUrl)⟩⟩

/-- Lines 149–256: build the plan (an unknown `audioMode` answers 400 from
inside the `try`), then execute and publish. -/
def planAndPublish (w : World) (files : List String) (effects : List Effect)
    (inputFile facingMode audioMode musicUrl musicStart musicVolume muxUploadUrl musicPath : String) :
    Run :=
  match buildPlan (newOutputPath w) inputFile facingMode audioMode musicUrl musicStart
      musicVolume (getVideoDuration w.probe) musicPath with
  | .invalidAudioMode =>
    ⟨musicPath, "", files, effects, ⟨400, .error "invalid audioMode"⟩⟩
  | .built args outputPath =>
    executeAndPublish w files effects inputFile facingMode audioMode musicUrl muxUploadUrl
      musicPath args outputPath

/-- The `try` block with its `catch` (lines 132–258): probe the duration,
download the music when `needsMusic`, then build the plan, execute and
publish. -/
def tryBlock (w : World) (files : List String)
    (inputFile facingMode audioMode musicUrl musicStart musicVolume muxUploadUrl : String) : Run :=
  let effects0 := [Effect.ffprobe (probeArgs inputFile)]
  if needsMusic audioMode then
    let effects1 := effects0 ++ [Effect.download musicUrl (newMusicPath w)]
    match downloadToFile w.download (newMusicPath w) files with
    | (some m, files1) => ⟨newMusicPath w, "", files1, effects1, caught m⟩
    | (none, files1) =>
      planAndPublish w files1 effects1 inputFile facingMode audioMode musicUrl musicStart
        musicVolume muxUploadUrl (newMusicPath w)
  else
    planAndPublish w files effects0 inputFile facingMode audioMode musicUrl musicStart
      musicVolume muxUploadUrl ""

/-- One round of the `forEach` in the `finally` clause: a non-empty path that
exists is unlinked; an error of `unlinkSync` is swallowed. -/
def cleanupStep (w : World) (acc : List String × List Effect) (filePath : String) :
    List String × List Effect :=
  if filePath ≠ "" ∧ filePath ∈ acc.1 then
    (if w.unlinkFails filePath then acc.1 else acc.1.filter (fun p => p ≠ filePath),
     acc.2 ++ [Effect.unlink filePath])
  else acc

/-- The `finally` clause (lines 259–267). -/
def finallyBlock (w : World) (inputFile : String) (r : Run) : Run :=
  let cleaned := [inputFile, r.musicPath, r.outputPath].foldl (cleanupStep w) (r.files, r.effects)
  ⟨r.musicPath, r.outputPath, cleaned.1, cleaned.2, r.response⟩

/-- The handler of `POST /process-upload`, started with `files` in scratch
storage (the upload written by multer among them). -/
def processUpload (w : World) (files : List String) (req : Request) : Run :=
  if req.inputFile = "" then ⟨"", "", files, [], ⟨400, .error "missing video"⟩⟩
  else if req.muxUploadUrl = "" then ⟨"", "", files, [], ⟨400, .error "missing muxUploadUrl"⟩⟩
  else if needsMusic req.audioMode ∧ req.musicUrl = "" then
    ⟨"", "", files, [], ⟨400, .error "missing musicUrl"⟩⟩
  else
    finallyBlock w req.inputFile
      (tryBlock w files req.inputFile req.facingMode req.audioMode req.musicUrl req.musicStart
        req.musicVolume req.muxUploadUrl)


/-! ## Sample inputs -/

/-- A world in which every collaborator succeeds: ffprobe prints `12.5`, the
music URL ends in `.mp3`, the download, ffmpeg and the `PUT` succeed, and
every `unlink` succeeds. -/
def sampleWorld : World :=
  ⟨"/tmp/uploads", some "12.5\n", some ".mp3", 1700000000001, 1700000000002, .done,
    ⟨true, "", true⟩, .response 200, fun _ => false⟩

/-- A request with an uploaded video and the given form fields. -/
def sampleRequest (facingMode audioMode musicUrl musicStart musicVolume muxUploadUrl : String) :
    Request :=
  ⟨some "/tmp/uploads/1700000000000-clip.mp4",
    some ⟨some facingMode, some audioMode, some musicUrl, some musicStart, some musicVolume,
      some muxUploadUrl⟩⟩

/-- The world of `sampleWorld`, except that the music download answers with a
response that is not `ok`. -/
def failedDownloadWorld : World :=
  ⟨"/tmp/uploads", some "12.5\n", some ".mp3", 1700000000001, 1700000000002, .badResponse,
    ⟨true, "", true⟩, .response 200, fun _ => false⟩

/-! ## Lemmas on the blocks of the handler -/

theorem buildPlan_invalid_iff (out input fm am mu ms mv : String) (d : Option JSNum)
    (mp : String) :
    buildPlan out input fm am mu ms mv d mp = .invalidAudioMode
      ↔ am ∉ ["original", "mute", "music", "music+original"] := by
  unfold buildPlan planCase shouldUploadOnly shouldMirrorOnly fullTransform
  by_cases h1 : am = "original"
  · subst h1; split <;> simp_all
  · by_cases h2 : am = "mute"
    · subst h2; simp
    · by_cases h3 : am = "music"
      · subst h3; simp
      · by_cases h4 : am = "music+original"
        · subst h4; simp
        · simp [h1, h2, h3, h4]

theorem buildPlan_outputPath {out input fm am mu ms mv : String} {d : Option JSNum}
    {mp : String} {args : List String} {o : String}
    (h : buildPlan out input fm am mu ms mv d mp = .built args o) :
    o = if shouldUploadOnly fm am mu then "" else out := by
  unfold buildPlan planCase fullTransform at h
  cases hu : shouldUploadOnly fm am mu <;> cases hm : shouldMirrorOnly fm am mu
    <;> simp [hu, hm] at h <;> try simp [h]
  all_goals split_ifs at h <;> simp_all

theorem executeAndPublish_status (w : World) (files : List String) (eff : List Effect)
    (input fm am mu url mp : String) (args : List String) (out : String) :
    (executeAndPublish w files eff input fm am mu url mp args out).response.status = 200 ∨
    (executeAndPublish w files eff input fm am mu url mp args out).response.status = 500 := by
  unfold executeAndPublish
  cases shouldUploadOnly fm am mu <;> cases hz : w.ffmpeg.exitZero <;> cases hp : putFile w.put
    <;> simp [runFfmpeg, caught, hz, hp] <;> split_ifs <;> simp

theorem executeAndPublish_response (w : World) (files : List String) (eff eff' : List Effect)
    (input fm am mu url mp mp' : String) (args args' : List String) (out : String) :
    (executeAndPublish w files eff input fm am mu url mp args out).response =
    (executeAndPublish w files eff' input fm am mu url mp' args' out).response := by
  unfold executeAndPublish
  cases shouldUploadOnly fm am mu <;> cases hz : w.ffmpeg.exitZero <;> cases hp : putFile w.put
    <;> simp [runFfmpeg, caught, hz, hp] <;> split_ifs <;> simp

theorem executeAndPublish_ffmpeg (w : World) (files : List String) (eff : List Effect)
    (input fm am mu url mp : String) (args : List String) (out : String) (a : List String) :
    Effect.ffmpeg a ∈ (executeAndPublish w files eff input fm am mu url mp args out).effects
      ↔ Effect.ffmpeg a ∈ eff ∨ (shouldUploadOnly fm am mu = false ∧ a = args) := by
  unfold executeAndPublish
  cases shouldUploadOnly fm am mu <;> cases hz : w.ffmpeg.exitZero <;> cases hp : putFile w.put
    <;> simp [runFfmpeg, caught, hz, hp] <;> split_ifs <;> simp

theorem executeAndPublish_download (w : World) (files : List String) (eff : List Effect)
    (input fm am mu url mp : String) (args : List String) (out : String) (u d : String) :
    Effect.download u d ∈ (executeAndPublish w files eff input fm am mu url mp args out).effects
      ↔ Effect.download u d ∈ eff := by
  unfold executeAndPublish
  cases shouldUploadOnly fm am mu <;> cases hz : w.ffmpeg.exitZero <;> cases hp : putFile w.put
    <;> simp [runFfmpeg, caught, hz, hp] <;> split_ifs <;> simp

theorem executeAndPublish_put (w : World) (files : List String) (eff : List Effect)
    (input fm am mu url mp : String) (args : List String) (out : String) (u f : String)
    (h : Effect.put u f ∈ (executeAndPublish w files eff input fm am mu url mp args out).effects) :
    Effect.put u f ∈ eff ∨
      (u = url ∧ f = (if shouldUploadOnly fm am mu then input else out) ∧
        (shouldUploadOnly fm am mu = false → w.ffmpeg.exitZero = true)) := by
  unfold executeAndPublish at h
  revert h
  cases shouldUploadOnly fm am mu <;> cases hz : w.ffmpeg.exitZero <;> cases hp : putFile w.put
    <;> simp [runFfmpeg, caught, hz, hp] <;> split_ifs <;> simp <;> tauto

theorem executeAndPublish_success (w : World) (files : List String) (eff : List Effect)
    (input fm am mu url mp : String) (args : List String) (out : String)
    (h : (executeAndPublish w files eff input fm am mu url mp args out).response.status = 200) :
    Effect.put url (if shouldUploadOnly fm am mu then input else out)
      ∈ (executeAndPublish w files eff input fm am mu url mp args out).effects := by
  unfold executeAndPublish at h ⊢
  revert h
  cases shouldUploadOnly fm am mu <;> cases hz : w.ffmpeg.exitZero <;> cases hp : putFile w.put
    <;> simp [runFfmpeg, caught, hz, hp] <;> split_ifs <;> simp


theorem needsMusic_valid {am : String} (h : needsMusic am = true) :
    am ∈ ["original", "mute", "music", "music+original"] := by
  unfold needsMusic at h
  simp at h
  rcases h with h | h <;> simp [h]

theorem planAndPublish_status (w : World) (files : List String) (eff : List Effect)
    (input fm am mu ms mv url mp : String) :
    ((planAndPublish w files eff input fm am mu ms mv url mp).response.status = 400
        ∧ am ∉ ["original", "mute", "music", "music+original"]) ∨
    (((planAndPublish w files eff input fm am mu ms mv url mp).response.status = 200 ∨
      (planAndPublish w files eff input fm am mu ms mv url mp).response.status = 500)
        ∧ am ∈ ["original", "mute", "music", "music+original"]) := by
  unfold planAndPublish
  cases hb : buildPlan (newOutputPath w) input fm am mu ms mv (getVideoDuration w.probe) mp with
  | invalidAudioMode =>
    left
    exact ⟨rfl, (buildPlan_invalid_iff _ _ _ _ _ _ _ _ _).1 hb⟩
  | built args o =>
    right
    refine ⟨executeAndPublish_status w files eff input fm am mu url mp args o, ?_⟩
    by_contra hne
    rw [(buildPlan_invalid_iff _ _ _ _ _ _ _ _ _).2 hne] at hb
    cases hb

theorem tryBlock_status (w : World) (files : List String)
    (input fm am mu ms mv url : String) :
    ((tryBlock w files input fm am mu ms mv url).response.status = 400
        ∧ am ∉ ["original", "mute", "music", "music+original"]) ∨
    (((tryBlock w files input fm am mu ms mv url).response.status = 200 ∨
      (tryBlock w files input fm am mu ms mv url).response.status = 500)
        ∧ am ∈ ["original", "mute", "music", "music+original"]) := by
  unfold tryBlock
  cases hn : needsMusic am
  · simpa using planAndPublish_status w _ _ input fm am mu ms mv url _
  · have hv := needsMusic_valid hn
    cases hd : w.download
    · right; exact ⟨Or.inr (by simp [downloadToFile, caught]), hv⟩
    · right; exact ⟨Or.inr (by simp [downloadToFile, caught]), hv⟩
    · right; exact ⟨Or.inr (by simp [downloadToFile, caught]), hv⟩
    · simpa [downloadToFile] using planAndPublish_status w _ _ input fm am mu ms mv url _


theorem planAndPublish_ffmpeg (w : World) (files : List String) (eff : List Effect)
    (input fm am mu ms mv url mp : String) (a : List String) :
    Effect.ffmpeg a ∈ (planAndPublish w files eff input fm am mu ms mv url mp).effects
      ↔ Effect.ffmpeg a ∈ eff ∨ (shouldUploadOnly fm am mu = false ∧
          buildPlan (newOutputPath w) input fm am mu ms mv (getVideoDuration w.probe) mp
            = .built a (newOutputPath w)) := by
  unfold planAndPublish
  cases hb : buildPlan (newOutputPath w) input fm am mu ms mv (getVideoDuration w.probe) mp with
  | invalidAudioMode => simp
  | built args o =>
    have ho := buildPlan_outputPath hb
    simp only [executeAndPublish_ffmpeg, PlanResult.built.injEq]
    constructor
    · rintro (h | ⟨h1, h2⟩)
      · exact Or.inl h
      · right; simp [h1] at ho; exact ⟨h1, h2.symm, ho⟩
    · rintro (h | ⟨h1, h2, _⟩)
      · exact Or.inl h
      · exact Or.inr ⟨h1, h2.symm⟩

theorem planAndPublish_download (w : World) (files : List String) (eff : List Effect)
    (input fm am mu ms mv url mp : String) (u d : String) :
    Effect.download u d ∈ (planAndPublish w files eff input fm am mu ms mv url mp).effects
      ↔ Effect.download u d ∈ eff := by
  unfold planAndPublish
  split
  · simp
  · exact executeAndPublish_download _ _ _ _ _ _ _ _ _ _ _ _ _

theorem planAndPublish_put (w : World) (files : List String) (eff : List Effect)
    (input fm am mu ms mv url mp : String) (u f : String)
    (h : Effect.put u f ∈ (planAndPublish w files eff input fm am mu ms mv url mp).effects) :
    Effect.put u f ∈ eff ∨
      (u = url ∧ f = (if shouldUploadOnly fm am mu then input else newOutputPath w) ∧
        (shouldUploadOnly fm am mu = false → w.ffmpeg.exitZero = true ∧ ∃ a,
          buildPlan (newOutputPath w) input fm am mu ms mv (getVideoDuration w.probe) mp
            = .built a (newOutputPath w))) := by
  unfold planAndPublish at h
  cases hb : buildPlan (newOutputPath w) input fm am mu ms mv (getVideoDuration w.probe) mp with
  | invalidAudioMode => rw [hb] at h; exact Or.inl h
  | built args o =>
    rw [hb] at h
    have ho := buildPlan_outputPath hb
    rcases executeAndPublish_put _ _ _ _ _ _ _ _ _ _ _ _ _ h with h | ⟨h1, h2, h3⟩
    · exact Or.inl h
    · right
      refine ⟨h1, ?_, ?_⟩
      · cases hu : shouldUploadOnly fm am mu
        · simp [hu] at ho h2 ⊢; rw [h2, ho]
        · simp [hu] at h2 ⊢; exact h2
      · intro hu
        simp [hu] at ho
        exact ⟨h3 hu, args, by rw [ho]⟩

theorem planAndPublish_success (w : World) (files : List String) (eff : List Effect)
    (input fm am mu ms mv url mp : String)
    (h : (planAndPublish w files eff input fm am mu ms mv url mp).response.status = 200) :
    Effect.put url (if shouldUploadOnly fm am mu then input else newOutputPath w)
      ∈ (planAndPublish w files eff input fm am mu ms mv url mp).effects := by
  unfold planAndPublish at h ⊢
  cases hb : buildPlan (newOutputPath w) input fm am mu ms mv (getVideoDuration w.probe) mp with
  | invalidAudioMode => rw [hb] at h; simp at h
  | built args o =>
    rw [hb] at h
    have ho := buildPlan_outputPath hb
    have := executeAndPublish_success _ _ _ _ _ _ _ _ _ _ _ h
    cases hu : shouldUploadOnly fm am mu
    · simp [hu] at ho this ⊢; subst ho; exact this
    · simp [hu] at this ⊢; exact this

theorem planAndPublish_response (w : World) (files : List String) (eff eff' : List Effect)
    (input fm am mu ms ms' mv mv' url mp mp' : String) :
    (planAndPublish w files eff input fm am mu ms mv url mp).response =
    (planAndPublish w files eff' input fm am mu ms' mv' url mp').response := by
  unfold planAndPublish
  cases hb : buildPlan (newOutputPath w) input fm am mu ms mv (getVideoDuration w.probe) mp with
  | invalidAudioMode =>
    have := (buildPlan_invalid_iff (newOutputPath w) input fm am mu ms' mv'
      (getVideoDuration w.probe) mp').2 ((buildPlan_invalid_iff _ _ _ _ _ _ _ _ _).1 hb)
    rw [this]
  | built args o =>
    cases hb' : buildPlan (newOutputPath w) input fm am mu ms' mv' (getVideoDuration w.probe) mp' with
    | invalidAudioMode =>
      have := (buildPlan_invalid_iff (newOutputPath w) input fm am mu ms mv
        (getVideoDuration w.probe) mp).2 ((buildPlan_invalid_iff _ _ _ _ _ _ _ _ _).1 hb')
      rw [this] at hb; cases hb
    | built args' o' =>
      have ho := buildPlan_outputPath hb
      have ho' := buildPlan_outputPath hb'
      rw [ho, ho']
      exact executeAndPublish_response _ _ _ _ _ _ _ _ _ _ _ _ _ _

theorem tryBlock_ffmpeg (w : World) (files : List String)
    (input fm am mu ms mv url : String) (a : List String) :
    Effect.ffmpeg a ∈ (tryBlock w files input fm am mu ms mv url).effects
      ↔ (needsMusic am = true → w.download = .done) ∧ shouldUploadOnly fm am mu = false ∧
          buildPlan (newOutputPath w) input fm am mu ms mv (getVideoDuration w.probe)
            (if needsMusic am then newMusicPath w else "") = .built a (newOutputPath w) := by
  unfold tryBlock
  cases hn : needsMusic am
  · simp [planAndPublish_ffmpeg]
  · cases hd : w.download <;> simp [downloadToFile, planAndPublish_ffmpeg]

theorem tryBlock_download (w : World) (files : List String)
    (input fm am mu ms mv url : String) (u d : String) :
    Effect.download u d ∈ (tryBlock w files input fm am mu ms mv url).effects
      ↔ needsMusic am = true ∧ u = mu ∧ d = newMusicPath w := by
  unfold tryBlock
  cases hn : needsMusic am
  · simp [planAndPublish_download]
  · cases hd : w.download <;> simp [downloadToFile, planAndPublish_download]

theorem tryBlock_put (w : World) (files : List String)
    (input fm am mu ms mv url : String) (u f : String)
    (h : Effect.put u f ∈ (tryBlock w files input fm am mu ms mv url).effects) :
    u = url ∧ f = (if shouldUploadOnly fm am mu then input else newOutputPath w) ∧
      (needsMusic am = true → w.download = .done) ∧
      (shouldUploadOnly fm am mu = false → w.ffmpeg.exitZero = true ∧ ∃ a,
        buildPlan (newOutputPath w) input fm am mu ms mv (getVideoDuration w.probe)
          (if needsMusic am then newMusicPath w else "") = .built a (newOutputPath w)) := by
  unfold tryBlock at h
  cases hn : needsMusic am
  · simp only [hn, Bool.false_eq_true, if_false] at h ⊢
    rcases planAndPublish_put _ _ _ _ _ _ _ _ _ _ _ _ _ h with h | ⟨h1, h2, h3⟩
    · simp at h
    · exact ⟨h1, h2, by simp, h3⟩
  · simp only [hn, if_true] at h ⊢
    cases hd : w.download <;> simp only [hd, downloadToFile] at h
    · simp at h
    · simp at h
    · simp at h
    · rcases planAndPublish_put _ _ _ _ _ _ _ _ _ _ _ _ _ h with h | ⟨h1, h2, h3⟩
      · simp at h
      · exact ⟨h1, h2, by simp, h3⟩

theorem tryBlock_success (w : World) (files : List String)
    (input fm am mu ms mv url : String)
    (h : (tryBlock w files input fm am mu ms mv url).response.status = 200) :
    Effect.put url (if shouldUploadOnly fm am mu then input else newOutputPath w)
      ∈ (tryBlock w files input fm am mu ms mv url).effects := by
  unfold tryBlock at h ⊢
  cases hn : needsMusic am
  · simp only [hn, Bool.false_eq_true, if_false] at h ⊢
    exact planAndPublish_success _ _ _ _ _ _ _ _ _ _ _ h
  · simp only [hn, if_true] at h ⊢
    cases hd : w.download <;> simp only [hd, downloadToFile] at h ⊢
    · simp [caught] at h
    · simp [caught] at h
    · simp [caught] at h
    · exact planAndPublish_success _ _ _ _ _ _ _ _ _ _ _ h

theorem tryBlock_response (w : World) (files : List String)
    (input fm am mu ms ms' mv mv' url : String) :
    (tryBlock w files input fm am mu ms mv url).response =
    (tryBlock w files input fm am mu ms' mv' url).response := by
  unfold tryBlock
  cases hn : needsMusic am
  · simp only [Bool.false_eq_true, if_false]
    exact planAndPublish_response _ _ _ _ _ _ _ _ _ _ _ _ _ _ _
  · simp only [if_true]
    cases hd : w.download <;> simp only [downloadToFile]
    exact planAndPublish_response _ _ _ _ _ _ _ _ _ _ _ _ _ _ _


theorem cleanupStep_mem (w : World) (acc : List String × List Effect) (p : String) (e : Effect)
    (he : ∀ q, e ≠ Effect.unlink q) :
    e ∈ (cleanupStep w acc p).2 ↔ e ∈ acc.2 := by
  unfold cleanupStep
  split_ifs <;> simp [he p]

theorem finallyBlock_mem (w : World) (input : String) (r : Run) (e : Effect)
    (he : ∀ q, e ≠ Effect.unlink q) :
    e ∈ (finallyBlock w input r).effects ↔ e ∈ r.effects := by
  simp [finallyBlock, cleanupStep_mem _ _ _ _ he]

theorem finallyBlock_response (w : World) (input : String) (r : Run) :
    (finallyBlock w input r).response = r.response := rfl

theorem processUpload_early (w : World) (files : List String) (req : Request)
    (h : req.inputFile = "" ∨ req.muxUploadUrl = "" ∨
      (needsMusic req.audioMode = true ∧ req.musicUrl = "")) :
    (processUpload w files req).response.status = 400 ∧
    (processUpload w files req).effects = [] ∧
    (processUpload w files req).files = files := by
  unfold processUpload
  split_ifs <;> simp_all

theorem processUpload_late (w : World) (files : List String) (req : Request)
    (h1 : req.inputFile ≠ "") (h2 : req.muxUploadUrl ≠ "")
    (h3 : ¬(needsMusic req.audioMode = true ∧ req.musicUrl = "")) :
    processUpload w files req = finallyBlock w req.inputFile
      (tryBlock w files req.inputFile req.facingMode req.audioMode req.musicUrl req.musicStart
        req.musicVolume req.muxUploadUrl) := by
  unfold processUpload
  rw [if_neg h1, if_neg h2, if_neg h3]

theorem planCase_passThrough (fm am mu : String) :
    planCase fm am mu = .PassThrough ↔ shouldUploadOnly fm am mu = true := by
  unfold planCase
  split_ifs <;> simp_all

theorem shouldUploadOnly_iff (fm am mu : String) :
    shouldUploadOnly fm am mu = true ↔ fm = "environment" ∧ am = "original" ∧ mu = "" := by
  simp [shouldUploadOnly, and_assoc]

theorem shouldMirrorOnly_iff (fm am mu : String) :
    shouldMirrorOnly fm am mu = true ↔ fm = "user" ∧ am = "original" ∧ mu = "" := by
  simp [shouldMirrorOnly, and_assoc]

theorem needsMusic_iff (am : String) :
    needsMusic am = true ↔ am = "music" ∨ am = "music+original" := by
  simp [needsMusic]

theorem inputFile_eq_empty (req : Request) :
    req.inputFile = "" ↔ req.file = none ∨ req.file = some "" := by
  unfold Request.inputFile
  cases req.file <;> simp


theorem processUpload_ffmpeg (w : World) (files : List String) (req : Request)
    (h1 : req.inputFile ≠ "") (h2 : req.muxUploadUrl ≠ "")
    (h3 : ¬(needsMusic req.audioMode = true ∧ req.musicUrl = "")) (a : List String) :
    Effect.ffmpeg a ∈ (processUpload w files req).effects
      ↔ (needsMusic req.audioMode = true → w.download = .done) ∧
        shouldUploadOnly req.facingMode req.audioMode req.musicUrl = false ∧
        buildPlan (newOutputPath w) req.inputFile req.facingMode req.audioMode req.musicUrl
          req.musicStart req.musicVolume (getVideoDuration w.probe)
          (if needsMusic req.audioMode then newMusicPath w else "")
            = .built a (newOutputPath w) := by
  rw [processUpload_late w files req h1 h2 h3, finallyBlock_mem _ _ _ _ (by simp)]
  exact tryBlock_ffmpeg _ _ _ _ _ _ _ _ _ a

theorem processUpload_download (w : World) (files : List String) (req : Request)
    (h1 : req.inputFile ≠ "") (h2 : req.muxUploadUrl ≠ "")
    (h3 : ¬(needsMusic req.audioMode = true ∧ req.musicUrl = "")) (u d : String) :
    Effect.download u d ∈ (processUpload w files req).effects
      ↔ needsMusic req.audioMode = true ∧ u = req.musicUrl ∧ d = newMusicPath w := by
  rw [processUpload_late w files req h1 h2 h3, finallyBlock_mem _ _ _ _ (by simp)]
  exact tryBlock_download _ _ _ _ _ _ _ _ _ u d

theorem processUpload_put (w : World) (files : List String) (req : Request)
    (h1 : req.inputFile ≠ "") (h2 : req.muxUploadUrl ≠ "")
    (h3 : ¬(needsMusic req.audioMode = true ∧ req.musicUrl = "")) (u f : String)
    (h : Effect.put u f ∈ (processUpload w files req).effects) :
    u = req.muxUploadUrl ∧
    f = (if shouldUploadOnly req.facingMode req.audioMode req.musicUrl then req.inputFile
          else newOutputPath w) ∧
    (needsMusic req.audioMode = true → w.download = .done) ∧
    (shouldUploadOnly req.facingMode req.audioMode req.musicUrl = false →
      w.ffmpeg.exitZero = true ∧ ∃ a,
        buildPlan (newOutputPath w) req.inputFile req.facingMode req.audioMode req.musicUrl
          req.musicStart req.musicVolume (getVideoDuration w.probe)
          (if needsMusic req.audioMode then newMusicPath w else "")
            = .built a (newOutputPath w)) := by
  rw [processUpload_late w files req h1 h2 h3, finallyBlock_mem _ _ _ _ (by simp)] at h
  exact tryBlock_put _ _ _ _ _ _ _ _ _ _ _ h

theorem processUpload_success (w : World) (files : List String) (req : Request)
    (h : (processUpload w files req).response.status = 200) :
    Effect.put req.muxUploadUrl
      (if shouldUploadOnly req.facingMode req.audioMode req.musicUrl then req.inputFile
        else newOutputPath w) ∈ (processUpload w files req).effects := by
  by_cases hearly : req.inputFile = "" ∨ req.muxUploadUrl = "" ∨
      (needsMusic req.audioMode = true ∧ req.musicUrl = "")
  · rw [(processUpload_early w files req hearly).1] at h
    exact absurd h (by decide)
  · have h1 : req.inputFile ≠ "" := fun h => hearly (Or.inl h)
    have h2 : req.muxUploadUrl ≠ "" := fun h => hearly (Or.inr (Or.inl h))
    have h3 : ¬(needsMusic req.audioMode = true ∧ req.musicUrl = "") :=
      fun h => hearly (Or.inr (Or.inr h))
    rw [processUpload_late w files req h1 h2 h3] at h ⊢
    rw [finallyBlock_mem _ _ _ _ (by simp)]
    exact tryBlock_success _ _ _ _ _ _ _ _ _ h

theorem not_400_passes (w : World) (files : List String) (req : Request)
    (hvalid : (processUpload w files req).response.status ≠ 400) :
    req.inputFile ≠ "" ∧ req.muxUploadUrl ≠ "" ∧
    ¬(needsMusic req.audioMode = true ∧ req.musicUrl = "") ∧
    req.audioMode ∈ ["original", "mute", "music", "music+original"] := by
  have h123 : ¬(req.inputFile = "" ∨ req.muxUploadUrl = "" ∨
      (needsMusic req.audioMode = true ∧ req.musicUrl = "")) :=
    fun h => hvalid (processUpload_early w files req h).1
  have h1 : req.inputFile ≠ "" := fun h => h123 (Or.inl h)
  have h2 : req.muxUploadUrl ≠ "" := fun h => h123 (Or.inr (Or.inl h))
  have h3 : ¬(needsMusic req.audioMode = true ∧ req.musicUrl = "") :=
    fun h => h123 (Or.inr (Or.inr h))
  refine ⟨h1, h2, h3, ?_⟩
  rw [processUpload_late w files req h1 h2 h3, finallyBlock_response] at hvalid
  rcases tryBlock_status w files req.inputFile req.facingMode req.audioMode req.musicUrl
    req.musicStart req.musicVolume req.muxUploadUrl with ⟨h, _⟩ | ⟨_, h⟩
  · exact absurd h hvalid
  · exact h


theorem musicFilter_trimmed (mv : String) (D : ℚ) :
    musicFilter mv (some (.fin D)) = "[1:a]volume=" ++ numberToString (volumeValue mv)
      ++ "[ma];[ma]atrim=0:" ++ numberToString (.fin D) ++ ",asetpts=N/SR/TB[a]" := by
  have e1 : ("[ma];[ma]atrim=0:" : String) = "[ma];[ma]" ++ "atrim=0:" := by decide
  have e2 : (",asetpts=N/SR/TB[a]" : String) = ",asetpts=N/SR/TB" ++ "[a]" := by decide
  rw [e1, e2]
  simp only [musicFilter, trimFilter, numberIsFinite, if_true, String.append_assoc]

theorem musicFilter_untrimmed (mv : String) :
    musicFilter mv none = "[1:a]volume=" ++ numberToString (volumeValue mv)
      ++ "[ma];[ma]asetpts=N/SR/TB[a]" := by
  have e1 : ("[ma];[ma]asetpts=N/SR/TB[a]" : String)
      = "[ma];[ma]" ++ "asetpts=N/SR/TB" ++ "[a]" := by decide
  rw [e1]
  simp only [musicFilter, trimFilter, String.append_assoc]

theorem volumeValue_spec (mv : String) :
    ∃ v : ℚ, volumeValue mv = .fin v ∧ 0 ≤ v ∧ v ≤ 1 ∧
      (∀ p : ℚ, parseFloat mv = .fin p →
        (p < 0 → v = 0) ∧ (1 < p → v = 1) ∧ (0 ≤ p → p ≤ 1 → v = p)) ∧
      (parseFloat mv = .negInf → v = 0) ∧
      (parseFloat mv = .posInf → v = 1) ∧
      (parseFloat mv = .nan → v = 0) := by
  unfold volumeValue
  cases hp : parseFloat mv with
  | nan => exact ⟨0, by simp [jsOrZero, mathMin, mathMax]⟩
  | posInf => exact ⟨1, by simp [jsOrZero, mathMin, mathMax]⟩
  | negInf => exact ⟨0, by simp [jsOrZero, mathMin, mathMax]⟩
  | fin p =>
    refine ⟨max 0 (min 1 p), ?_, le_max_left _ _, max_le zero_le_one (min_le_left _ _), ?_, ?_⟩
    · by_cases h0 : p = 0
      · simp [jsOrZero, mathMin, mathMax, h0]
      · simp [jsOrZero, mathMin, mathMax, h0]
    · intro p' hp'
      cases hp'
      refine ⟨fun h => ?_, fun h => ?_, fun h0 h1 => ?_⟩
      · rw [max_eq_left]; exact le_trans (min_le_right _ _) h.le
      · rw [min_eq_left h.le, max_eq_right zero_le_one]
      · rw [min_eq_right h1, max_eq_right h0]
    · simp

theorem getVideoDuration_cases (probe : Option String) :
    getVideoDuration probe = none ∨ ∃ D : ℚ, getVideoDuration probe = some (.fin D) := by
  unfold getVideoDuration
  cases probe with
  | none => exact Or.inl rfl
  | some stdout =>
    cases h : parseFloat (String.mk (jsTrim stdout.data)) with
    | fin q => exact Or.inr ⟨q, by simp [numberIsFinite, h]⟩
    | nan => exact Or.inl (by simp [numberIsFinite, h])
    | posInf => exact Or.inl (by simp [numberIsFinite, h])
    | negInf => exact Or.inl (by simp [numberIsFinite, h])

theorem buildPlan_music (out input fm mu ms mv mp : String) (d : Option JSNum) :
    buildPlan out input fm "music" mu ms mv d mp
      = .built (["-y", "-i", input, "-ss", musicStartArg ms, "-i", mp, "-filter_complex",
          musicFilter mv d, "-map", "0:v:0", "-map", "[a]"] ++ baseVideoArgs fm ++
          ["-shortest", "-c:v", "libx264", "-preset", "veryfast", "-crf", "20", "-c:a", "aac",
            "-movflags", "+faststart", out]) out := by
  simp [buildPlan, planCase, shouldUploadOnly, shouldMirrorOnly, fullTransform]

theorem buildPlan_mix (out input fm mu ms mv mp : String) (d : Option JSNum) :
    buildPlan out input fm "music+original" mu ms mv d mp
      = .built (["-y", "-i", input, "-ss", musicStartArg ms, "-i", mp, "-filter_complex",
          mixFilter mv, "-map", "0:v:0", "-map", "[a]"] ++ baseVideoArgs fm ++
          ["-shortest", "-c:v", "libx264", "-preset", "veryfast", "-crf", "20", "-c:a", "aac",
            "-movflags", "+faststart", out]) out := by
  simp [buildPlan, planCase, shouldUploadOnly, shouldMirrorOnly, fullTransform]

theorem buildPlan_mute (out input fm mu ms mv mp : String) (d : Option JSNum) :
    buildPlan out input fm "mute" mu ms mv d mp
      = .built
        (if fm = "user" then
          ["-y", "-i", input, "-vf", "hflip", "-map", "0:v:0", "-an", "-c:v", "libx264",
            "-preset", "veryfast", "-crf", "20", "-movflags", "+faststart", out]
        else
          ["-y", "-i", input, "-map", "0:v:0", "-an", "-c:v", "copy", "-movflags",
            "+faststart", out]) out := by
  by_cases h : fm = "user" <;>
    simp [buildPlan, planCase, shouldUploadOnly, shouldMirrorOnly, fullTransform,
      baseVideoArgs, h]

theorem buildPlan_user_original (out input mu ms mv mp : String) (d : Option JSNum) :
    buildPlan out input "user" "original" mu ms mv d mp
      = .built ["-y", "-i", input, "-vf", "hflip", "-c:v", "libx264", "-preset", "veryfast",
          "-crf", "20", "-c:a", "copy", "-movflags", "+faststart", out] out := by
  by_cases h : mu = ""
  · simp [buildPlan, planCase, shouldUploadOnly, shouldMirrorOnly, h]
  · simp [buildPlan, planCase, shouldUploadOnly, shouldMirrorOnly, h, fullTransform,
      baseVideoArgs]

theorem processUpload_response_eq (w : World) (files : List String) (req req' : Request)
    (hf : req'.inputFile = req.inputFile) (hfm : req'.facingMode = req.facingMode)
    (ham : req'.audioMode = req.audioMode) (hmu : req'.musicUrl = req.musicUrl)
    (hurl : req'.muxUploadUrl = req.muxUploadUrl) :
    (processUpload w files req').response = (processUpload w files req).response := by
  unfold processUpload
  rw [hf, hfm, ham, hmu, hurl]
  split_ifs
  · rfl
  · rfl
  · rfl
  · rw [finallyBlock_response, finallyBlock_response]
    exact tryBlock_response _ _ _ _ _ _ _ _ _ _ _


theorem pathJoin_ne_empty (dir name : String) : pathJoin dir name ≠ "" := by
  intro h
  have hlen := congrArg String.length h
  simp only [pathJoin, String.length_append] at hlen
  have h1 : "/".length = 1 := by decide
  have h0 : "".length = 0 := by decide
  omega

theorem cleanupStep_files (w : World) (hun : ∀ p, w.unlinkFails p = false)
    (acc : List String × List Effect) (p q : String) :
    q ∈ (cleanupStep w acc p).1 ↔ q ∈ acc.1 ∧ (p = "" ∨ q ≠ p) := by
  unfold cleanupStep
  by_cases hp : p = ""
  · simp [hp]
  · by_cases hin : p ∈ acc.1
    · simp [hp, hin, hun p, List.mem_filter]
    · simp only [hp, hin, and_false, if_false, false_or, iff_self_and, ne_eq]
      intro hq hqp
      exact hin (hqp ▸ hq)

theorem finallyBlock_files (w : World) (hun : ∀ p, w.unlinkFails p = false)
    (input : String) (r : Run) (q : String) :
    q ∈ (finallyBlock w input r).files ↔
      q ∈ r.files ∧ (input = "" ∨ q ≠ input) ∧ (r.musicPath = "" ∨ q ≠ r.musicPath) ∧
        (r.outputPath = "" ∨ q ≠ r.outputPath) := by
  simp only [finallyBlock, List.foldl_cons, List.foldl_nil, cleanupStep_files w hun]
  tauto

theorem executeAndPublish_paths (w : World) (files : List String) (eff : List Effect)
    (input fm am mu url mp : String) (args : List String) (out : String) :
    (executeAndPublish w files eff input fm am mu url mp args out).musicPath = mp ∧
    (executeAndPublish w files eff input fm am mu url mp args out).outputPath = out ∧
    ∀ q, q ∈ (executeAndPublish w files eff input fm am mu url mp args out).files →
      q ∈ files ∨ (shouldUploadOnly fm am mu = false ∧ q = out) := by
  unfold executeAndPublish
  cases shouldUploadOnly fm am mu <;> cases hz : w.ffmpeg.exitZero
    <;> cases hw : w.ffmpeg.outputWritten <;> cases hp : putFile w.put
    <;> simp [runFfmpeg, caught, hz, hw, hp] <;> (try split_ifs) <;> (try simp) <;> (try tauto)

theorem planAndPublish_paths (w : World) (files : List String) (eff : List Effect)
    (input fm am mu ms mv url mp : String) :
    (planAndPublish w files eff input fm am mu ms mv url mp).musicPath = mp ∧
    (∀ q, q ∈ (planAndPublish w files eff input fm am mu ms mv url mp).files →
      q ∈ files ∨ q = newOutputPath w ∧
        (planAndPublish w files eff input fm am mu ms mv url mp).outputPath
          = newOutputPath w) ∧
    (∀ a, Effect.ffmpeg a ∈ (planAndPublish w files eff input fm am mu ms mv url mp).effects →
      Effect.ffmpeg a ∈ eff ∨
        (planAndPublish w files eff input fm am mu ms mv url mp).outputPath
          = newOutputPath w) := by
  unfold planAndPublish
  cases hb : buildPlan (newOutputPath w) input fm am mu ms mv (getVideoDuration w.probe) mp with
  | invalidAudioMode => exact ⟨rfl, fun q hq => Or.inl hq, fun a ha => Or.inl ha⟩
  | built args o =>
    have ho := buildPlan_outputPath hb
    obtain ⟨hm, hop, hfiles⟩ := executeAndPublish_paths w files eff input fm am mu url mp args o
    refine ⟨hm, fun q hq => ?_, fun a ha => ?_⟩
    · rw [hop]
      rcases hfiles q hq with h | ⟨hu, h⟩
      · exact Or.inl h
      · right
        have : o = newOutputPath w := by simpa [hu] using ho
        exact ⟨h.trans this, this⟩
    · rw [hop]
      rcases (executeAndPublish_ffmpeg _ _ _ _ _ _ _ _ _ _ _ _).1 ha with h | ⟨hu, _⟩
      · exact Or.inl h
      · right; simpa [hu] using ho

theorem tryBlock_paths (w : World) (files : List String) (input fm am mu ms mv url : String) :
    (tryBlock w files input fm am mu ms mv url).musicPath
      = (if needsMusic am then newMusicPath w else "") ∧
    (∀ q, q ∈ (tryBlock w files input fm am mu ms mv url).files →
      q ∈ files ∨ (needsMusic am = true ∧ q = newMusicPath w) ∨
        (q = newOutputPath w ∧
          (tryBlock w files input fm am mu ms mv url).outputPath = newOutputPath w)) ∧
    (∀ a, Effect.ffmpeg a ∈ (tryBlock w files input fm am mu ms mv url).effects →
      (tryBlock w files input fm am mu ms mv url).outputPath = newOutputPath w) := by
  unfold tryBlock
  cases hn : needsMusic am
  · simp only [Bool.false_eq_true, if_false, false_and, false_or]
    obtain ⟨hm, hf, he⟩ := planAndPublish_paths w files [Effect.ffprobe (probeArgs input)]
      input fm am mu ms mv url ""
    refine ⟨hm, hf, fun a ha => ?_⟩
    rcases he a ha with h | h
    · simp at h
    · exact h
  · simp only [if_true, true_and]
    cases hd : w.download with
    | rejected m =>
      exact ⟨rfl, fun q hq => Or.inl hq, fun a ha => by simp [downloadToFile] at ha⟩
    | badResponse =>
      exact ⟨rfl, fun q hq => Or.inl hq, fun a ha => by simp [downloadToFile] at ha⟩
    | streamFailed m left =>
      cases left <;> simp [downloadToFile] <;> tauto
    | done =>
      simp only [downloadToFile]
      obtain ⟨hm, hf, he⟩ := planAndPublish_paths w (newMusicPath w :: files)
        ([Effect.ffprobe (probeArgs input)] ++ [Effect.download mu (newMusicPath w)])
        input fm am mu ms mv url (newMusicPath w)
      refine ⟨hm, fun q hq => ?_, fun a ha => ?_⟩
      · rcases hf q hq with h | h
        · rcases List.mem_cons.1 h with h | h
          · exact Or.inr (Or.inl h)
          · exact Or.inl h
        · exact Or.inr (Or.inr h)
      · rcases he a ha with h | h
        · simp at h
        · exact h

/-- Every path through the `try` block ends in the `finally` clause: when
each deletion succeeds, a request that passed the three early checks leaves
behind neither the uploaded file, nor the music file it downloaded, nor the
output file of an ffmpeg run, and adds no file to scratch storage. -/
theorem cleanup_inside_try (w : World) (files : List String) (req : Request)
    (h1 : req.inputFile ≠ "") (h2 : req.muxUploadUrl ≠ "")
    (h3 : ¬(needsMusic req.audioMode = true ∧ req.musicUrl = ""))
    (hun : ∀ p, w.unlinkFails p = false) :
    req.inputFile ∉ (processUpload w files req).files ∧
    (needsMusic req.audioMode = true → newMusicPath w ∉ (processUpload w files req).files) ∧
    ((∃ a, Effect.ffmpeg a ∈ (processUpload w files req).effects) →
      newOutputPath w ∉ (processUpload w files req).files) ∧
    (∀ q, q ∈ (processUpload w files req).files → q ∈ files) := by
  have hrun := processUpload_late w files req h1 h2 h3
  obtain ⟨hm, hf, he⟩ := tryBlock_paths w files req.inputFile req.facingMode req.audioMode
    req.musicUrl req.musicStart req.musicVolume req.muxUploadUrl
  have hfin := finallyBlock_files w hun req.inputFile
    (tryBlock w files req.inputFile req.facingMode req.audioMode req.musicUrl req.musicStart
      req.musicVolume req.muxUploadUrl)
  rw [← hrun] at hfin
  refine ⟨fun hq => ?_, fun hn hq => ?_, fun ⟨a, ha⟩ hq => ?_, fun q hq => ?_⟩
  · have := ((hfin _).1 hq).2.1
    tauto
  · have := ((hfin _).1 hq).2.2.1
    rw [hm, hn] at this
    simp only [if_true] at this
    rcases this with h | h
    · exact pathJoin_ne_empty _ _ h
    · exact h rfl
  · rw [hrun, finallyBlock_mem _ _ _ _ (by simp)] at ha
    have ho := he a ha
    have := ((hfin _).1 hq).2.2.2
    rw [ho] at this
    rcases this with h | h
    · exact pathJoin_ne_empty _ _ h
    · exact h rfl
  · obtain ⟨hq1, _, hq3, hq4⟩ := (hfin q).1 hq
    rcases hf q hq1 with h | ⟨hn, h⟩ | h
    · exact h
    · rw [hm, hn] at hq3
      simp only [if_true] at hq3
      rcases hq3 with h' | h'
      · exact absurd h' (pathJoin_ne_empty _ _)
      · exact absurd h h'
    · rw [h.2] at hq4
      rcases hq4 with h' | h'
      · exact absurd h' (pathJoin_ne_empty _ _)
      · exact absurd h.1 h'


theorem jsSplit_ne_nil (sep : Char) (cs : List Char) : jsSplit sep cs ≠ [] := by
  cases cs with
  | nil => simp [jsSplit]
  | cons c cs =>
    unfold jsSplit
    split_ifs
    · simp
    · split <;> simp

theorem jsSplit_no_sep (sep : Char) (cs : List Char) (h : sep ∉ cs) :
    jsSplit sep cs = [cs] := by
  induction cs with
  | nil => rfl
  | cons c cs ih =>
    have hc : c ≠ sep := fun e => h (by simp [e])
    have hcs : sep ∉ cs := fun e => h (List.mem_cons_of_mem _ e)
    simp [jsSplit, hc, ih hcs]

theorem jsSplit_append (sep : Char) (a b : List Char) :
    jsSplit sep (a ++ sep :: b) = jsSplit sep a ++ jsSplit sep b := by
  induction a with
  | nil => simp [jsSplit]
  | cons c a ih =>
    by_cases hc : c = sep
    · simp [jsSplit, hc, ih]
    · cases hs : jsSplit sep a with
      | nil => exact absurd hs (jsSplit_ne_nil sep a)
      | cons p ps => simp [jsSplit, hc, ih, hs]

theorem getLastD_mem (ps : List (List Char)) (p : List Char) : ps.getLastD p ∈ p :: ps := by
  induction ps generalizing p with
  | nil => simp
  | cons q qs ih =>
    rw [List.getLastD_cons]
    exact List.mem_cons_of_mem _ (ih q)

theorem getLastD_append (xs ys : List (List Char)) (d : List Char) (h : ys ≠ []) :
    (xs ++ ys).getLastD d = ys.getLastD d := by
  induction xs generalizing d with
  | nil => rfl
  | cons x xs ih =>
    rw [List.cons_append, List.getLastD_cons, ih x]
    cases ys with
    | nil => exact absurd rfl h
    | cons y ys => rw [List.getLastD_cons, List.getLastD_cons]

theorem jsSplit_pieces (sep : Char) (cs : List Char) :
    ∀ p ∈ jsSplit sep cs, sep ∉ p ∧ ∀ c ∈ p, c ∈ cs := by
  induction cs with
  | nil => simp [jsSplit]
  | cons c cs ih =>
    unfold jsSplit
    split_ifs with hc
    · intro p hp
      rcases List.mem_cons.1 hp with h | h
      · simp [h]
      · exact ⟨(ih p h).1, fun x hx => List.mem_cons_of_mem _ ((ih p h).2 x hx)⟩
    · cases hs : jsSplit sep cs with
      | nil => exact absurd hs (jsSplit_ne_nil sep cs)
      | cons q qs =>
        rw [hs] at ih
        intro p hp
        rcases List.mem_cons.1 hp with h | h
        · rw [h]
          have hq := ih q (List.mem_cons_self _ _)
          refine ⟨fun hmem => ?_, fun x hx => ?_⟩
          · rcases List.mem_cons.1 hmem with e | e
            · exact hc e.symm
            · exact hq.1 e
          · rcases List.mem_cons.1 hx with e | e
            · simp [e]
            · exact List.mem_cons_of_mem _ (hq.2 x e)
        · have hp' := ih p (List.mem_cons_of_mem _ h)
          exact ⟨hp'.1, fun x hx => List.mem_cons_of_mem _ (hp'.2 x hx)⟩

/-- What `buildAssetId` does compute: for a URL `pre/pn` or `pre/pn?q` in
which neither the segment `pn` nor the query `q` contains a `/` (and `pn` no
`?`) the result is `pn`; and no result contains `/` or `?`. -/
theorem buildAssetId_last_segment (pre pn q : String)
    (h1 : '/' ∉ pn.data) (h2 : '?' ∉ pn.data) (h3 : '/' ∉ q.data) :
    buildAssetId (pre ++ "/" ++ pn) = pn ∧
    buildAssetId (pre ++ "/" ++ pn ++ "?" ++ q) = pn ∧
    ∀ url : String, '/' ∉ (buildAssetId url).data ∧ '?' ∉ (buildAssetId url).data := by
  refine ⟨?_, ?_, fun url => ?_⟩
  · have hd : (pre ++ "/" ++ pn).data = pre.data ++ '/' :: pn.data := by
      simp [String.data_append]
    unfold buildAssetId
    rw [hd, jsSplit_append, getLastD_append _ _ _ (jsSplit_ne_nil _ _), jsSplit_no_sep _ _ h1]
    simp [jsSplit_no_sep _ _ h2]
  · have hd : (pre ++ "/" ++ pn ++ "?" ++ q).data
        = pre.data ++ '/' :: (pn.data ++ '?' :: q.data) := by
      simp [String.data_append]
    have hno : '/' ∉ pn.data ++ '?' :: q.data := by
      simp only [List.mem_append, List.mem_cons, not_or]
      exact ⟨h1, by decide, h3⟩
    unfold buildAssetId
    rw [hd, jsSplit_append, getLastD_append _ _ _ (jsSplit_ne_nil _ _), jsSplit_no_sep _ _ hno]
    rw [List.getLastD_cons, List.getLastD_nil, jsSplit_append, jsSplit_no_sep _ _ h2]
    rfl
  · unfold buildAssetId
    have hlast : (jsSplit '/' url.data).getLastD [] ∈ jsSplit '/' url.data := by
      cases hs : jsSplit '/' url.data with
      | nil => exact absurd hs (jsSplit_ne_nil _ _)
      | cons p ps =>
        rw [List.getLastD_cons]
        exact getLastD_mem ps p
    have hhead : (jsSplit '?' ((jsSplit '/' url.data).getLastD [])).headD []
        ∈ jsSplit '?' ((jsSplit '/' url.data).getLastD []) := by
      cases hs : jsSplit '?' ((jsSplit '/' url.data).getLastD []) with
      | nil => exact absurd hs (jsSplit_ne_nil _ _)
      | cons p ps => simp
    have hA := jsSplit_pieces '/' url.data _ hlast
    have hB := jsSplit_pieces '?' _ _ hhead
    exact ⟨fun h => hA.1 (hB.2 _ h), hB.1⟩


theorem putFile_none_iff (o : PutOutcome) :
    putFile o = none ↔ ∃ s, o = .response s ∧ 200 ≤ s ∧ s ≤ 299 := by
  cases o with
  | rejected m => simp [putFile]
  | response s =>
    simp only [putFile, PutOutcome.response.injEq, exists_eq_left']
    split_ifs with h
    · simp [h]
    · simp [h]

theorem executeAndPublish_ok_iff (w : World) (files : List String) (eff : List Effect)
    (input fm am mu url mp : String) (args : List String) (out : String) :
    (executeAndPublish w files eff input fm am mu url mp args out).response.status = 200 ↔
      (shouldUploadOnly fm am mu = false → w.ffmpeg.exitZero = true) ∧
      (if shouldUploadOnly fm am mu then input ∈ files
        else (w.ffmpeg.outputWritten = true ∨ out ∈ files)) ∧
      ∃ s, w.put = .response s ∧ 200 ≤ s ∧ s ≤ 299 := by
  rw [← putFile_none_iff]
  unfold executeAndPublish
  cases shouldUploadOnly fm am mu <;> cases hz : w.ffmpeg.exitZero
    <;> cases hw : w.ffmpeg.outputWritten <;> cases hp : putFile w.put
    <;> simp [runFfmpeg, caught, hz, hw, hp] <;> (try split_ifs) <;> (try simp_all)

theorem planAndPublish_ok_iff (w : World) (files : List String) (eff : List Effect)
    (input fm am mu ms mv url mp : String) :
    (planAndPublish w files eff input fm am mu ms mv url mp).response.status = 200 ↔
      am ∈ ["original", "mute", "music", "music+original"] ∧
      (shouldUploadOnly fm am mu = false → w.ffmpeg.exitZero = true) ∧
      (if shouldUploadOnly fm am mu then input ∈ files
        else (w.ffmpeg.outputWritten = true ∨ newOutputPath w ∈ files)) ∧
      ∃ s, w.put = .response s ∧ 200 ≤ s ∧ s ≤ 299 := by
  unfold planAndPublish
  cases hb : buildPlan (newOutputPath w) input fm am mu ms mv (getVideoDuration w.probe) mp with
  | invalidAudioMode =>
    have := (buildPlan_invalid_iff _ _ _ _ _ _ _ _ _).1 hb
    simp [this]
  | built args o =>
    have hv : am ∈ ["original", "mute", "music", "music+original"] := by
      by_contra hne
      rw [(buildPlan_invalid_iff _ _ _ _ _ _ _ _ _).2 hne] at hb
      cases hb
    have ho := buildPlan_outputPath hb
    rw [executeAndPublish_ok_iff]
    cases hu : shouldUploadOnly fm am mu
    · simp only [hu, Bool.false_eq_true, if_false] at ho ⊢
      rw [ho]
      simp only [hv, true_and]
    · simp only [hu, if_true]
      simp only [hv, true_and]

theorem tryBlock_ok_iff (w : World) (files : List String)
    (input fm am mu ms mv url : String) :
    (tryBlock w files input fm am mu ms mv url).response.status = 200 ↔
      am ∈ ["original", "mute", "music", "music+original"] ∧
      (needsMusic am = true → w.download = .done) ∧
      (shouldUploadOnly fm am mu = false → w.ffmpeg.exitZero = true) ∧
      (if shouldUploadOnly fm am mu then input ∈ files
        else (w.ffmpeg.outputWritten = true ∨ newOutputPath w ∈ files ∨
          (needsMusic am = true ∧ newOutputPath w = newMusicPath w))) ∧
      ∃ s, w.put = .response s ∧ 200 ≤ s ∧ s ≤ 299 := by
  unfold tryBlock
  cases hn : needsMusic am
  · simp only [Bool.false_eq_true, if_false, planAndPublish_ok_iff, false_and, or_false,
      false_implies, true_and]
  · have hup : shouldUploadOnly fm am mu = false := by
      cases hu : shouldUploadOnly fm am mu
      · rfl
      · rw [shouldUploadOnly_iff] at hu
        rw [needsMusic_iff, hu.2.1] at hn
        simp at hn
    simp only [if_true]
    cases hd : w.download with
    | rejected m => simp [downloadToFile, caught]
    | badResponse => simp [downloadToFile, caught]
    | streamFailed m left => simp [downloadToFile, caught]
    | done =>
      simp only [downloadToFile, planAndPublish_ok_iff, hup, Bool.false_eq_true, if_false,
        List.mem_cons, true_and, forall_true_left]
      tauto

theorem tryBlock_ffprobe (w : World) (files : List String)
    (input fm am mu ms mv url : String) :
    Effect.ffprobe (probeArgs input) ∈ (tryBlock w files input fm am mu ms mv url).effects := by
  have hpp : ∀ (fs : List String) (eff : List Effect) (mp : String),
      Effect.ffprobe (probeArgs input) ∈ eff →
      Effect.ffprobe (probeArgs input)
        ∈ (planAndPublish w fs eff input fm am mu ms mv url mp).effects := by
    intro fs eff mp he
    unfold planAndPublish
    split
    · exact he
    · unfold executeAndPublish
      cases shouldUploadOnly fm am mu <;> cases hz : w.ffmpeg.exitZero
        <;> cases hp : putFile w.put
        <;> simp [runFfmpeg, caught, hz, hp] <;> (try split_ifs) <;> simp [he]
  unfold tryBlock
  cases hn : needsMusic am
  · exact hpp _ _ _ (by simp)
  · simp only [if_true]
    cases hd : w.download <;> simp only [downloadToFile]
    · simp
    · simp
    · simp
    · exact hpp _ _ _ (by simp)

theorem processUpload_ffprobe (w : World) (files : List String) (req : Request)
    (h1 : req.inputFile ≠ "") (h2 : req.muxUploadUrl ≠ "")
    (h3 : ¬(needsMusic req.audioMode = true ∧ req.musicUrl = "")) :
    Effect.ffprobe (probeArgs req.inputFile) ∈ (processUpload w files req).effects := by
  rw [processUpload_late w files req h1 h2 h3, finallyBlock_mem _ _ _ _ (by simp)]
  exact tryBlock_ffprobe _ _ _ _ _ _ _ _ _

theorem processUpload_ok_iff (w : World) (files : List String) (req : Request) :
    (processUpload w files req).response.status = 200 ↔
      req.inputFile ≠ "" ∧ req.muxUploadUrl ≠ "" ∧
      ¬(needsMusic req.audioMode = true ∧ req.musicUrl = "") ∧
      req.audioMode ∈ ["original", "mute", "music", "music+original"] ∧
      (needsMusic req.audioMode = true → w.download = .done) ∧
      (shouldUploadOnly req.facingMode req.audioMode req.musicUrl = false →
        w.ffmpeg.exitZero = true) ∧
      (if shouldUploadOnly req.facingMode req.audioMode req.musicUrl then req.inputFile ∈ files
        else (w.ffmpeg.outputWritten = true ∨ newOutputPath w ∈ files ∨
          (needsMusic req.audioMode = true ∧ newOutputPath w = newMusicPath w))) ∧
      ∃ s, w.put = .response s ∧ 200 ≤ s ∧ s ≤ 299 := by
  by_cases hearly : req.inputFile = "" ∨ req.muxUploadUrl = "" ∨
      (needsMusic req.audioMode = true ∧ req.musicUrl = "")
  · have hs := (processUpload_early w files req hearly).1
    rw [hs]
    constructor
    · intro h; exact absurd h (by decide)
    · rintro ⟨h1, h2, h3, _⟩
      rcases hearly with h | h | h
      · exact absurd h h1
      · exact absurd h h2
      · exact absurd h h3
  · have h1 : req.inputFile ≠ "" := fun h => hearly (Or.inl h)
    have h2 : req.muxUploadUrl ≠ "" := fun h => hearly (Or.inr (Or.inl h))
    have h3 : ¬(needsMusic req.audioMode = true ∧ req.musicUrl = "") :=
      fun h => hearly (Or.inr (Or.inr h))
    rw [processUpload_late w files req h1 h2 h3, finallyBlock_response, tryBlock_ok_iff]
    constructor
    · intro h; exact ⟨h1, h2, h3, h⟩
    · intro h; exact h.2.2.2


theorem processUpload_status_cases (w : World) (files : List String) (req : Request) :
    (processUpload w files req).response.status = 200 ∨
    (processUpload w files req).response.status = 400 ∨
    (processUpload w files req).response.status = 500 := by
  by_cases hearly : req.inputFile = "" ∨ req.muxUploadUrl = "" ∨
      (needsMusic req.audioMode = true ∧ req.musicUrl = "")
  · exact Or.inr (Or.inl (processUpload_early w files req hearly).1)
  · have h1 : req.inputFile ≠ "" := fun h => hearly (Or.inl h)
    have h2 : req.muxUploadUrl ≠ "" := fun h => hearly (Or.inr (Or.inl h))
    have h3 : ¬(needsMusic req.audioMode = true ∧ req.musicUrl = "") :=
      fun h => hearly (Or.inr (Or.inr h))
    rw [processUpload_late w files req h1 h2 h3, finallyBlock_response]
    rcases tryBlock_status w files req.inputFile req.facingMode req.audioMode req.musicUrl
      req.musicStart req.musicVolume req.muxUploadUrl with ⟨h, _⟩ | ⟨h | h, _⟩
    · exact Or.inr (Or.inl h)
    · exact Or.inl h
    · exact Or.inr (Or.inr h)

theorem processUpload_400_iff (w : World) (files : List String) (req : Request) :
    (processUpload w files req).response.status = 400 ↔
      (req.inputFile = "" ∨ req.muxUploadUrl = "" ∨
        (needsMusic req.audioMode = true ∧ req.musicUrl = "") ∨
        req.audioMode ∉ ["original", "mute", "music", "music+original"]) := by
  by_cases hearly : req.inputFile = "" ∨ req.muxUploadUrl = "" ∨
      (needsMusic req.audioMode = true ∧ req.musicUrl = "")
  · have hs := (processUpload_early w files req hearly).1
    constructor
    · intro _; tauto
    · intro _; exact hs
  · have h1 : req.inputFile ≠ "" := fun h => hearly (Or.inl h)
    have h2 : req.muxUploadUrl ≠ "" := fun h => hearly (Or.inr (Or.inl h))
    have h3 : ¬(needsMusic req.audioMode = true ∧ req.musicUrl = "") :=
      fun h => hearly (Or.inr (Or.inr h))
    rw [processUpload_late w files req h1 h2 h3, finallyBlock_response]
    rcases tryBlock_status w files req.inputFile req.facingMode req.audioMode req.musicUrl
      req.musicStart req.musicVolume req.muxUploadUrl with ⟨h, hn⟩ | ⟨h | h, hv⟩
    · constructor
      · intro _; exact Or.inr (Or.inr (Or.inr hn))
      · intro _; exact h
    · constructor
      · intro h'; rw [h] at h'; exact absurd h' (by decide)
      · intro h'; tauto
    · constructor
      · intro h'; rw [h] at h'; exact absurd h' (by decide)
      · intro h'; tauto

/-! ## The claims -/

/-- C1 as the code has it: for every request that is not answered 400, the
branch taken at lines 149–157 is `PassThrough` exactly for (`environment`,
`original`, no music URL), `MirrorOnly` exactly for (`user`, `original`, no
music URL) and `FullTransform` otherwise, and depends on `musicUrl` only
through its emptiness.  The duration probe (`ffprobe`, line 135) runs for
every such request, `PassThrough` included.  In the `PassThrough` case ffmpeg
(`runFfmpeg`) is never invoked, only the uploaded file is ever `PUT`, and it
is `PUT` when the answer is 200.  In the other cases the plan has arguments
`args` and output `newOutputPath`, and ffmpeg is invoked, with `args` and
nothing else, exactly when a required music download did not fail: a failed
download is answered 500 with no ffmpeg run.  Only `newOutputPath` is ever
`PUT`, and only after ffmpeg; an answer of 200 means both happened; and the
block at lines 218–256 itself invokes ffmpeg on every entry. -/
theorem plan_selection (w : World) (files : List String) (req : Request)
    (hvalid : (processUpload w files req).response.status ≠ 400) :
    (planCase req.facingMode req.audioMode req.musicUrl = .PassThrough
      ↔ req.facingMode = "environment" ∧ req.audioMode = "original" ∧ req.musicUrl = "") ∧
    (planCase req.facingMode req.audioMode req.musicUrl = .MirrorOnly
      ↔ req.facingMode = "user" ∧ req.audioMode = "original" ∧ req.musicUrl = "") ∧
    (planCase req.facingMode req.audioMode req.musicUrl = .FullTransform
      ↔ ¬(req.facingMode = "environment" ∧ req.audioMode = "original" ∧ req.musicUrl = "") ∧
        ¬(req.facingMode = "user" ∧ req.audioMode = "original" ∧ req.musicUrl = "")) ∧
    (∀ mu' : String, (mu' = "" ↔ req.musicUrl = "") →
      planCase req.facingMode req.audioMode mu'
        = planCase req.facingMode req.audioMode req.musicUrl) ∧
    (planCase req.facingMode req.audioMode req.musicUrl = .PassThrough →
      (∀ a, Effect.ffmpeg a ∉ (processUpload w files req).effects) ∧
      (∀ u f, Effect.put u f ∈ (processUpload w files req).effects → f = req.inputFile) ∧
      ((processUpload w files req).response.status = 200 →
        Effect.put req.muxUploadUrl req.inputFile ∈ (processUpload w files req).effects)) ∧
    (planCase req.facingMode req.audioMode req.musicUrl ≠ .PassThrough →
      ∃ args, buildPlan (newOutputPath w) req.inputFile req.facingMode req.audioMode
          req.musicUrl req.musicStart req.musicVolume (getVideoDuration w.probe)
          (if needsMusic req.audioMode then newMusicPath w else "")
            = .built args (newOutputPath w) ∧
        ((needsMusic req.audioMode = true → w.download = .done) →
          Effect.ffmpeg args ∈ (processUpload w files req).effects) ∧
        (∀ a, Effect.ffmpeg a ∈ (processUpload w files req).effects → a = args) ∧
        (∀ u f, Effect.put u f ∈ (processUpload w files req).effects →
          f = newOutputPath w ∧ Effect.ffmpeg args ∈ (processUpload w files req).effects) ∧
        ((processUpload w files req).response.status = 200 →
          Effect.ffmpeg args ∈ (processUpload w files req).effects ∧
          Effect.put req.muxUploadUrl (newOutputPath w)
            ∈ (processUpload w files req).effects)) ∧
    (planCase req.facingMode req.audioMode req.musicUrl ≠ .PassThrough →
      ∀ (fs : List String) (eff : List Effect) (mp : String) (args : List String)
        (out : String),
        Effect.ffmpeg args ∈ (executeAndPublish w fs eff req.inputFile req.facingMode
          req.audioMode req.musicUrl req.muxUploadUrl mp args out).effects) ∧
    Effect.ffprobe (probeArgs req.inputFile) ∈ (processUpload w files req).effects ∧
    ((∃ a, Effect.ffmpeg a ∈ (processUpload w files req).effects) ↔
      planCase req.facingMode req.audioMode req.musicUrl ≠ .PassThrough ∧
      (needsMusic req.audioMode = true → w.download = .done)) ∧
    (needsMusic req.audioMode = true → w.download ≠ .done →
      (processUpload w files req).response.status = 500 ∧
      ∀ a, Effect.ffmpeg a ∉ (processUpload w files req).effects) := by
  obtain ⟨h1, h2, h3, h4⟩ := not_400_passes w files req hvalid
  have hff := processUpload_ffmpeg w files req h1 h2 h3
  have hput := processUpload_put w files req h1 h2 h3
  have hok := processUpload_success w files req
  refine ⟨?_, ?_, ?_, ?_, ?_, ?_, ?_, processUpload_ffprobe w files req h1 h2 h3, ?_, ?_⟩
  · rw [planCase_passThrough, shouldUploadOnly_iff]
  · unfold planCase
    rw [← shouldMirrorOnly_iff]
    split_ifs with ha hb
    · rw [shouldUploadOnly_iff] at ha
      simp [shouldMirrorOnly, ha.1]
    · simp [hb]
    · simp [hb]
  · unfold planCase
    rw [← shouldMirrorOnly_iff, ← shouldUploadOnly_iff]
    split_ifs with ha hb <;> simp [*]
  · intro mu' hmu
    unfold planCase shouldUploadOnly shouldMirrorOnly
    by_cases hm : req.musicUrl = ""
    · simp [hm, hmu.2 hm]
    · have : mu' ≠ "" := fun h => hm (hmu.1 h)
      simp [hm, this]
  · intro hpc
    rw [planCase_passThrough] at hpc
    refine ⟨fun a ha => ?_, fun u f h => ?_, fun h => ?_⟩
    · have := ((hff a).1 ha).2.1
      rw [hpc] at this
      cases this
    · have := (hput u f h).2.1
      simpa [hpc] using this
    · simpa [hpc] using hok h
  · intro hpc
    rw [Ne, planCase_passThrough, Bool.not_eq_true] at hpc
    cases hb : buildPlan (newOutputPath w) req.inputFile req.facingMode req.audioMode
        req.musicUrl req.musicStart req.musicVolume (getVideoDuration w.probe)
        (if needsMusic req.audioMode then newMusicPath w else "") with
    | invalidAudioMode =>
      exact absurd h4 ((buildPlan_invalid_iff _ _ _ _ _ _ _ _ _).1 hb)
    | built args o =>
      have ho := buildPlan_outputPath hb
      simp [hpc] at ho
      subst ho
      have hrunff : ∀ a, Effect.ffmpeg a ∈ (processUpload w files req).effects → a = args := by
        intro a ha
        have := ((hff a).1 ha).2.2
        rw [hb] at this
        simpa using this.symm
      refine ⟨args, rfl, fun hd => (hff args).2 ⟨hd, hpc, hb⟩, hrunff, fun u f h => ?_,
        fun h => ?_⟩
      · obtain ⟨_, hf, hd, _⟩ := hput u f h
        exact ⟨by simpa [hpc] using hf, (hff args).2 ⟨hd, hpc, hb⟩⟩
      · have hp := hok h
        simp only [hpc, Bool.false_eq_true, if_false] at hp
        obtain ⟨_, _, hd, _⟩ := hput _ _ hp
        exact ⟨(hff args).2 ⟨hd, hpc, hb⟩, hp⟩
  · intro hpc fs eff mp args out
    rw [Ne, planCase_passThrough, Bool.not_eq_true] at hpc
    exact (executeAndPublish_ffmpeg _ _ _ _ _ _ _ _ _ _ _ _).2 (Or.inr ⟨hpc, rfl⟩)
  · rw [Ne, planCase_passThrough, Bool.not_eq_true]
    constructor
    · rintro ⟨a, ha⟩
      obtain ⟨hd, hu, _⟩ := (hff a).1 ha
      exact ⟨hu, hd⟩
    · rintro ⟨hu, hd⟩
      cases hb : buildPlan (newOutputPath w) req.inputFile req.facingMode req.audioMode
          req.musicUrl req.musicStart req.musicVolume (getVideoDuration w.probe)
          (if needsMusic req.audioMode then newMusicPath w else "") with
      | invalidAudioMode =>
        exact absurd h4 ((buildPlan_invalid_iff _ _ _ _ _ _ _ _ _).1 hb)
      | built args o =>
        have ho := buildPlan_outputPath hb
        simp [hu] at ho
        subst ho
        exact ⟨args, (hff args).2 ⟨hd, hu, hb⟩⟩
  · intro hn hd
    have hno : ∀ a, Effect.ffmpeg a ∉ (processUpload w files req).effects :=
      fun a ha => hd (((hff a).1 ha).1 hn)
    refine ⟨?_, hno⟩
    rcases processUpload_status_cases w files req with h | h | h
    · have := ((processUpload_ok_iff w files req).1 h).2.2.2.2.1 hn
      exact absurd this hd
    · exact absurd h hvalid
    · exact h


/-- C3 as the code has it: the answer is 400 exactly when no video was
uploaded, or the upload URL is empty, or `audioMode` needs music and
`musicUrl` is empty, or `audioMode` is not one of the four recognised values.
In each of these cases neither ffmpeg (`runFfmpeg`) nor the `PUT` nor the
music download is invoked; after the first three the handler has invoked
nothing at all, but an unknown `audioMode` is refused only inside the `try`,
after the duration probe (`ffprobe`, line 135) has run.  Every answer is 200,
400 or 500; it is 200 exactly when the request passes the four checks, a
required download succeeds, ffmpeg (when run) exits with 0, the file to
upload exists and the `PUT` is answered with a 2xx status; so a failed
download, a failed ffmpeg run, a missing output file and a failed `PUT` are
each answered 500, never 400. -/
theorem status_400_iff (w : World) (files : List String) (req : Request) :
    ((processUpload w files req).response.status = 400 ↔
      ((req.file = none ∨ req.file = some "") ∨ req.muxUploadUrl = "" ∨
        ((req.audioMode = "music" ∨ req.audioMode = "music+original") ∧ req.musicUrl = "") ∨
        req.audioMode ∉ ["original", "mute", "music", "music+original"])) ∧
    ((processUpload w files req).response.status = 400 →
      (∀ a, Effect.ffmpeg a ∉ (processUpload w files req).effects) ∧
      (∀ u f, Effect.put u f ∉ (processUpload w files req).effects) ∧
      (∀ u d, Effect.download u d ∉ (processUpload w files req).effects)) ∧
    ((processUpload w files req).response.status = 200 ∨
      (processUpload w files req).response.status = 400 ∨
      (processUpload w files req).response.status = 500) ∧
    (((req.file = none ∨ req.file = some "") ∨ req.muxUploadUrl = "" ∨
        ((req.audioMode = "music" ∨ req.audioMode = "music+original") ∧ req.musicUrl = "")) →
      (processUpload w files req).effects = []) ∧
    (¬((req.file = none ∨ req.file = some "") ∨ req.muxUploadUrl = "" ∨
        ((req.audioMode = "music" ∨ req.audioMode = "music+original") ∧ req.musicUrl = "")) →
      Effect.ffprobe (probeArgs req.inputFile) ∈ (processUpload w files req).effects) ∧
    ((processUpload w files req).response.status = 200 ↔
      ¬((req.file = none ∨ req.file = some "") ∨ req.muxUploadUrl = "" ∨
        ((req.audioMode = "music" ∨ req.audioMode = "music+original") ∧ req.musicUrl = "") ∨
        req.audioMode ∉ ["original", "mute", "music", "music+original"]) ∧
      ((req.audioMode = "music" ∨ req.audioMode = "music+original") → w.download = .done) ∧
      (shouldUploadOnly req.facingMode req.audioMode req.musicUrl = false →
        w.ffmpeg.exitZero = true) ∧
      (if shouldUploadOnly req.facingMode req.audioMode req.musicUrl then req.inputFile ∈ files
        else (w.ffmpeg.outputWritten = true ∨ newOutputPath w ∈ files ∨
          (needsMusic req.audioMode = true ∧ newOutputPath w = newMusicPath w))) ∧
      ∃ s, w.put = .response s ∧ 200 ≤ s ∧ s ≤ 299) ∧
    (¬((req.file = none ∨ req.file = some "") ∨ req.muxUploadUrl = "" ∨
        ((req.audioMode = "music" ∨ req.audioMode = "music+original") ∧ req.musicUrl = "") ∨
        req.audioMode ∉ ["original", "mute", "music", "music+original"]) →
      (((req.audioMode = "music" ∨ req.audioMode = "music+original") ∧ w.download ≠ .done) →
        (processUpload w files req).response.status = 500) ∧
      ((shouldUploadOnly req.facingMode req.audioMode req.musicUrl = false ∧
          w.ffmpeg.exitZero = false) →
        (processUpload w files req).response.status = 500) ∧
      ((shouldUploadOnly req.facingMode req.audioMode req.musicUrl = false ∧
          w.ffmpeg.outputWritten = false ∧ newOutputPath w ∉ files ∧
          newOutputPath w ≠ newMusicPath w) →
        (processUpload w files req).response.status = 500) ∧
      ((∀ s, w.put = .response s → ¬(200 ≤ s ∧ s ≤ 299)) →
        (processUpload w files req).response.status = 500)) := by
  have h400 := processUpload_400_iff w files req
  have h200 := processUpload_ok_iff w files req
  have hcases := processUpload_status_cases w files req
  rw [inputFile_eq_empty, needsMusic_iff] at h400
  refine ⟨h400, fun hs => ?_, hcases, fun hearly => ?_, fun hlate => ?_, ?_, fun hpass => ?_⟩
  · by_cases hearly : req.inputFile = "" ∨ req.muxUploadUrl = "" ∨
        (needsMusic req.audioMode = true ∧ req.musicUrl = "")
    · simp [(processUpload_early w files req hearly).2.1]
    · have h1 : req.inputFile ≠ "" := fun h => hearly (Or.inl h)
      have h2 : req.muxUploadUrl ≠ "" := fun h => hearly (Or.inr (Or.inl h))
      have h3 : ¬(needsMusic req.audioMode = true ∧ req.musicUrl = "") :=
        fun h => hearly (Or.inr (Or.inr h))
      have hinv : req.audioMode ∉ ["original", "mute", "music", "music+original"] := by
        rcases (processUpload_400_iff w files req).1 hs with h | h | h | h
        · exact absurd h h1
        · exact absurd h h2
        · exact absurd h h3
        · exact h
      have hnm : needsMusic req.audioMode = false := by
        cases hn : needsMusic req.audioMode
        · rfl
        · exact absurd (needsMusic_valid hn) hinv
      have hbp := (buildPlan_invalid_iff (newOutputPath w) req.inputFile req.facingMode
        req.audioMode req.musicUrl req.musicStart req.musicVolume (getVideoDuration w.probe)
        (if needsMusic req.audioMode then newMusicPath w else "")).2 hinv
      have hup : shouldUploadOnly req.facingMode req.audioMode req.musicUrl = false := by
        cases hu : shouldUploadOnly req.facingMode req.audioMode req.musicUrl
        · rfl
        · rw [shouldUploadOnly_iff] at hu
          exact absurd (by simp [hu.2.1]) hinv
      refine ⟨fun a ha => ?_, fun u f hp => ?_, fun u d hd => ?_⟩
      · have := ((processUpload_ffmpeg w files req h1 h2 h3 a).1 ha).2.2
        rw [hbp] at this
        cases this
      · obtain ⟨_, a, ha⟩ := (processUpload_put w files req h1 h2 h3 u f hp).2.2.2 hup
        rw [hbp] at ha
        cases ha
      · have := ((processUpload_download w files req h1 h2 h3 u d).1 hd).1
        rw [hnm] at this
        cases this
  · refine (processUpload_early w files req ?_).2.1
    rw [inputFile_eq_empty, needsMusic_iff]
    exact hearly
  · apply processUpload_ffprobe
    · exact fun h => hlate (Or.inl ((inputFile_eq_empty req).1 h))
    · exact fun h => hlate (Or.inr (Or.inl h))
    · exact fun h => hlate (Or.inr (Or.inr ⟨(needsMusic_iff _).1 h.1, h.2⟩))
  · rw [h200]
    constructor
    · rintro ⟨a1, a2, a3, a4, a5, a6, a7, a8⟩
      refine ⟨?_, fun hm => a5 ((needsMusic_iff _).2 hm), a6, a7, a8⟩
      rintro (h | h | h | h)
      · exact a1 ((inputFile_eq_empty req).2 h)
      · exact a2 h
      · exact a3 ⟨(needsMusic_iff _).2 h.1, h.2⟩
      · exact h a4
    · rintro ⟨hn, b5, b6, b7, b8⟩
      refine ⟨fun h => hn (Or.inl ((inputFile_eq_empty req).1 h)),
        fun h => hn (Or.inr (Or.inl h)),
        fun h => hn (Or.inr (Or.inr (Or.inl ⟨(needsMusic_iff _).1 h.1, h.2⟩))),
        ?_, fun hm => b5 ((needsMusic_iff _).1 hm), b6, b7, b8⟩
      by_contra h
      exact hn (Or.inr (Or.inr (Or.inr h)))
  · have hnot400 : (processUpload w files req).response.status ≠ 400 :=
      fun h => hpass (h400.1 h)
    have h500 : (processUpload w files req).response.status ≠ 200 →
        (processUpload w files req).response.status = 500 := by
      intro hne
      rcases hcases with h | h | h
      · exact absurd h hne
      · exact absurd h hnot400
      · exact h
    refine ⟨fun ⟨hn, hd⟩ => h500 fun h => ?_, fun ⟨hu, hz⟩ => h500 fun h => ?_,
      fun ⟨hu, hw, hf, hne⟩ => h500 fun h => ?_, fun hp => h500 fun h => ?_⟩
    · exact hd ((h200.1 h).2.2.2.2.1 ((needsMusic_iff _).2 hn))
    · have := (h200.1 h).2.2.2.2.2.1 hu
      rw [hz] at this
      cases this
    · have := (h200.1 h).2.2.2.2.2.2.1
      rw [hu] at this
      simp only [Bool.false_eq_true, if_false] at this
      rcases this with h' | h' | h'
      · rw [hw] at h'; cases h'
      · exact hf h'
      · exact hne h'.2
    · obtain ⟨s, hs, hr⟩ := (h200.1 h).2.2.2.2.2.2.2
      exact hp s hs hr


/-- Witness for C1: a `user` / `original` request without music is answered
200 and is the `MirrorOnly` case. -/
theorem plan_selection_witness :
    (processUpload sampleWorld ["/tmp/uploads/1700000000000-clip.mp4"]
      (sampleRequest "user" "original" "" "0" "1" "https://h/up/ID?x=y")).response.status ≠ 400 ∧
    (planCase (sampleRequest "user" "original" "" "0" "1" "https://h/up/ID?x=y").facingMode
        (sampleRequest "user" "original" "" "0" "1" "https://h/up/ID?x=y").audioMode
        (sampleRequest "user" "original" "" "0" "1" "https://h/up/ID?x=y").musicUrl
          = .MirrorOnly
      ↔ (sampleRequest "user" "original" "" "0" "1" "https://h/up/ID?x=y").facingMode = "user" ∧
        (sampleRequest "user" "original" "" "0" "1" "https://h/up/ID?x=y").audioMode
          = "original" ∧
        (sampleRequest "user" "original" "" "0" "1" "https://h/up/ID?x=y").musicUrl = "") :=
  ⟨by decide,
    (plan_selection sampleWorld ["/tmp/uploads/1700000000000-clip.mp4"]
      (sampleRequest "user" "original" "" "0" "1" "https://h/up/ID?x=y") (by decide)).2.1⟩

/-- Counterexample to C1 as stated: an `environment` / `music` request with a
music URL whose download fails is answered 500, not 400, and is a
`FullTransform` case, yet the handler only probes, tries the download and
cleans up: ffmpeg is never invoked.  And in the `PassThrough` case the
handler does invoke `ffprobe`, the engine in inspection mode, before the
`PUT`. -/
theorem download_failure_skips_engine :
    (processUpload failedDownloadWorld ["/tmp/uploads/1700000000000-clip.mp4"]
      (sampleRequest "environment" "music" "https://cdn/m.mp3" "0" "1"
        "https://h/up/ID?x=y")).response.status = 500 ∧
    planCase "environment" "music" "https://cdn/m.mp3" = .FullTransform ∧
    (processUpload failedDownloadWorld ["/tmp/uploads/1700000000000-clip.mp4"]
      (sampleRequest "environment" "music" "https://cdn/m.mp3" "0" "1"
        "https://h/up/ID?x=y")).effects
      = [Effect.ffprobe (probeArgs "/tmp/uploads/1700000000000-clip.mp4"),
         Effect.download "https://cdn/m.mp3" "/tmp/uploads/music-1700000000001.mp3",
         Effect.unlink "/tmp/uploads/1700000000000-clip.mp4"] ∧
    planCase "environment" "original" "" = .PassThrough ∧
    (processUpload sampleWorld ["/tmp/uploads/1700000000000-clip.mp4"]
      (sampleRequest "environment" "original" "" "0" "1" "https://h/up/ID?x=y")).effects
      = [Effect.ffprobe (probeArgs "/tmp/uploads/1700000000000-clip.mp4"),
         Effect.put "https://h/up/ID?x=y" "/tmp/uploads/1700000000000-clip.mp4",
         Effect.unlink "/tmp/uploads/1700000000000-clip.mp4"] := by
  decide

/-- Counterexample to C3 as stated: a request with the unknown `audioMode`
`bogus` is answered 400, but only after the handler has invoked `ffprobe`,
the engine in inspection mode, on the upload. -/
theorem invalid_audio_mode_after_probe :
    (processUpload sampleWorld ["/tmp/uploads/1700000000000-clip.mp4"]
      (sampleRequest "environment" "bogus" "" "0" "1" "https://h/up/ID?x=y")).response.status
      = 400 ∧
    (processUpload sampleWorld ["/tmp/uploads/1700000000000-clip.mp4"]
      (sampleRequest "environment" "bogus" "" "0" "1" "https://h/up/ID?x=y")).effects
      = [Effect.ffprobe (probeArgs "/tmp/uploads/1700000000000-clip.mp4"),
         Effect.unlink "/tmp/uploads/1700000000000-clip.mp4"] := by
  decide

/-- C2 (the code leaves the upload behind): when a video was uploaded and the
request is refused by the early checks at lines 116–125 (empty upload URL, or
music needed without `musicUrl`), the handler answers 400 without reaching the
`finally` clause: no `unlink` is made and the uploaded file is still in scratch
storage. -/
theorem early_return_skips_cleanup (w : World) (files : List String) (req : Request)
    (_hfile : req.inputFile ≠ "") (hin : req.inputFile ∈ files)
    (h : req.muxUploadUrl = "" ∨ (needsMusic req.audioMode = true ∧ req.musicUrl = "")) :
    (processUpload w files req).response.status = 400 ∧
    (processUpload w files req).effects = [] ∧
    req.inputFile ∈ (processUpload w files req).files := by
  obtain ⟨hs, he, hf⟩ := processUpload_early w files req (Or.inr h)
  exact ⟨hs, he, by rw [hf]; exact hin⟩

/-- Witness for C2: an uploaded clip with an empty `muxUploadUrl`, every
deletion succeeding: the answer is 400 and the clip is still there. -/
theorem early_return_skips_cleanup_witness :
    (processUpload sampleWorld ["/tmp/uploads/1700000000000-clip.mp4"]
      (sampleRequest "environment" "original" "" "0" "1" "")).response.status = 400 ∧
    "/tmp/uploads/1700000000000-clip.mp4" ∈
      (processUpload sampleWorld ["/tmp/uploads/1700000000000-clip.mp4"]
        (sampleRequest "environment" "original" "" "0" "1" "")).files :=
  ⟨(early_return_skips_cleanup sampleWorld ["/tmp/uploads/1700000000000-clip.mp4"]
      (sampleRequest "environment" "original" "" "0" "1" "") (by decide) (by decide)
      (Or.inl (by decide))).1,
   (early_return_skips_cleanup sampleWorld ["/tmp/uploads/1700000000000-clip.mp4"]
      (sampleRequest "environment" "original" "" "0" "1" "") (by decide) (by decide)
      (Or.inl (by decide))).2.2⟩

/-- C4 (the code returns the wrong segment): for `https://h/up/ID?x=y` the
result is `ID`, but when the query string contains a `/`, as in
`https://h/up/ID?next=/a/b`, `buildAssetId` returns the text after the last
`/` of the whole URL, here `b`, and not the final path segment `ID`. -/
theorem buildAssetId_query_slash :
    buildAssetId "https://h/up/ID?x=y" = "ID" ∧
    buildAssetId "https://h/up/ID?next=/a/b" = "b" := by
  decide


/-- C5: the factor written as `volume=v` by the `music` and `music+original`
branches is a finite number `v` with `0 ≤ v ≤ 1`; it is `0` when the parsed
`musicVolume` is below 0 (or `-Infinity`, or not a number), `1` when it is
above 1 (or `Infinity`), and the parsed value itself when that lies in
`[0, 1]`; `-1` gives 0, `2.5` gives 1, `0` gives `volume=0`; and two requests
that differ only in `musicVolume` receive the same response, so no request is
refused because of its volume. -/
theorem volume_clamped (musicVolume : String) :
    (∃ v : ℚ, volumeValue musicVolume = .fin v ∧ 0 ≤ v ∧ v ≤ 1 ∧
      (∀ p : ℚ, parseFloat musicVolume = .fin p →
        (p < 0 → v = 0) ∧ (1 < p → v = 1) ∧ (0 ≤ p → p ≤ 1 → v = p)) ∧
      (parseFloat musicVolume = .negInf → v = 0) ∧
      (parseFloat musicVolume = .posInf → v = 1) ∧
      (parseFloat musicVolume = .nan → v = 0) ∧
      (∀ d, musicFilter musicVolume d
        = "[1:a]volume=" ++ numberToString (.fin v) ++ "[ma];[ma]" ++ trimFilter d ++ "[a]") ∧
      mixFilter musicVolume = "[1:a]volume=" ++ numberToString (.fin v)
        ++ "[ma];[0:a][ma]amix=inputs=2:duration=first:dropout_transition=2[a]") ∧
    (∀ (out input fm mu ms mp : String) (d : Option JSNum),
      (∃ args, buildPlan out input fm "music" mu ms musicVolume d mp = .built args out ∧
        ["-filter_complex", musicFilter musicVolume d] <:+: args) ∧
      (∃ args, buildPlan out input fm "music+original" mu ms musicVolume d mp
          = .built args out ∧
        ["-filter_complex", mixFilter musicVolume] <:+: args)) ∧
    (volumeValue "-1" = .fin 0 ∧ volumeValue "2.5" = .fin 1 ∧
      volumeValue "0.3" = parseFloat "0.3" ∧
      musicFilter "0" none = "[1:a]volume=0[ma];[ma]asetpts=N/SR/TB[a]" ∧
      mixFilter "0"
        = "[1:a]volume=0[ma];[0:a][ma]amix=inputs=2:duration=first:dropout_transition=2[a]") ∧
    (∀ (w : World) (files : List String) (req req' : Request),
      req'.inputFile = req.inputFile → req'.facingMode = req.facingMode →
      req'.audioMode = req.audioMode → req'.musicUrl = req.musicUrl →
      req'.musicStart = req.musicStart → req'.muxUploadUrl = req.muxUploadUrl →
      (processUpload w files req').response = (processUpload w files req).response) := by
  refine ⟨?_, ?_, ?_, ?_⟩
  · obtain ⟨v, hv, h0, h1, hp, hn, hi, hnan⟩ := volumeValue_spec musicVolume
    exact ⟨v, hv, h0, h1, hp, hn, hi, hnan, fun d => by rw [musicFilter, hv],
      by rw [mixFilter, hv]⟩
  · intro out input fm mu ms mp d
    refine ⟨⟨_, buildPlan_music out input fm mu ms musicVolume mp d, ?_⟩,
      ⟨_, buildPlan_mix out input fm mu ms musicVolume mp d, ?_⟩⟩
    · exact ⟨["-y", "-i", input, "-ss", musicStartArg ms, "-i", mp],
        ["-map", "0:v:0", "-map", "[a]"] ++ baseVideoArgs fm ++
          ["-shortest", "-c:v", "libx264", "-preset", "veryfast", "-crf", "20", "-c:a", "aac",
            "-movflags", "+faststart", out], by simp⟩
    · exact ⟨["-y", "-i", input, "-ss", musicStartArg ms, "-i", mp],
        ["-map", "0:v:0", "-map", "[a]"] ++ baseVideoArgs fm ++
          ["-shortest", "-c:v", "libx264", "-preset", "veryfast", "-crf", "20", "-c:a", "aac",
            "-movflags", "+faststart", out], by simp⟩
  · decide
  · intro w files req req' hf hfm ham hmu _ hurl
    exact processUpload_response_eq w files req req' hf hfm ham hmu hurl

/-- C6: for `audioMode = 'music'` the plan is always built, with the filter
graph `[1:a]volume=V[ma];[ma]atrim=0:D,asetpts=N/SR/TB[a]` for a finite probed
duration `D` and `[1:a]volume=V[ma];[ma]asetpts=N/SR/TB[a]` when the probe gave
no duration (the probe gives nothing else), mapping `0:v:0` and `[a]`; and the
handler runs ffmpeg with exactly this list once the music is downloaded. -/
theorem music_filter_graph (out input fm mu ms mv mp : String) (d : Option JSNum) :
    buildPlan out input fm "music" mu ms mv d mp
      = .built (["-y", "-i", input, "-ss", musicStartArg ms, "-i", mp, "-filter_complex",
          musicFilter mv d, "-map", "0:v:0", "-map", "[a]"] ++ baseVideoArgs fm ++
          ["-shortest", "-c:v", "libx264", "-preset", "veryfast", "-crf", "20", "-c:a", "aac",
            "-movflags", "+faststart", out]) out ∧
    (∀ D : ℚ, musicFilter mv (some (.fin D)) = "[1:a]volume=" ++ numberToString (volumeValue mv)
      ++ "[ma];[ma]atrim=0:" ++ numberToString (.fin D) ++ ",asetpts=N/SR/TB[a]") ∧
    musicFilter mv none = "[1:a]volume=" ++ numberToString (volumeValue mv)
      ++ "[ma];[ma]asetpts=N/SR/TB[a]" ∧
    (∀ probe : Option String,
      getVideoDuration probe = none ∨ ∃ D : ℚ, getVideoDuration probe = some (.fin D)) ∧
    (∀ (w : World) (files : List String) (req : Request),
      req.audioMode = "music" → req.inputFile ≠ "" → req.muxUploadUrl ≠ "" →
      req.musicUrl ≠ "" → w.download = .done →
      Effect.ffmpeg (["-y", "-i", req.inputFile, "-ss", musicStartArg req.musicStart, "-i",
          newMusicPath w, "-filter_complex",
          musicFilter req.musicVolume (getVideoDuration w.probe),
          "-map", "0:v:0", "-map", "[a]"] ++ baseVideoArgs req.facingMode ++
          ["-shortest", "-c:v", "libx264", "-preset", "veryfast", "-crf", "20", "-c:a", "aac",
            "-movflags", "+faststart", newOutputPath w])
        ∈ (processUpload w files req).effects) := by
  refine ⟨buildPlan_music out input fm mu ms mv mp d, musicFilter_trimmed mv,
    musicFilter_untrimmed mv, getVideoDuration_cases, ?_⟩
  intro w files req ham h1 h2 h3 hd
  rw [processUpload_ffmpeg w files req h1 h2 (fun h => h3 h.2)]
  refine ⟨fun _ => hd, ?_, ?_⟩
  · simp [shouldUploadOnly, ham]
  · rw [ham]
    simp only [needsMusic, decide_True, Bool.true_or, if_true]
    exact buildPlan_music _ _ _ _ _ _ _ _


/-- C7: the argument list of `music+original` is the list of `music` with the
same other parameters (two inputs, `-ss` on the music input, maps `0:v:0` and
`[a]`, `-shortest`, libx264, aac, `+faststart`) except for the filter graph,
which is `[1:a]volume=V[ma];[0:a][ma]amix=inputs=2:duration=first:dropout_transition=2[a]`
and does not depend on the probed duration; `environment`, `musicStart = '5'`,
`musicVolume = '0.3'` gives `-ss 5` and `volume=0.3`; and the handler runs
ffmpeg with exactly this list once the music is downloaded. -/
theorem mix_args_match_music (out input fm mu ms mv mp : String) (d d' : Option JSNum) :
    buildPlan out input fm "music+original" mu ms mv d mp
      = .built (["-y", "-i", input, "-ss", musicStartArg ms, "-i", mp, "-filter_complex"]
          ++ mixFilter mv :: (["-map", "0:v:0", "-map", "[a]"] ++ baseVideoArgs fm ++
          ["-shortest", "-c:v", "libx264", "-preset", "veryfast", "-crf", "20", "-c:a", "aac",
            "-movflags", "+faststart", out])) out ∧
    buildPlan out input fm "music" mu ms mv d mp
      = .built (["-y", "-i", input, "-ss", musicStartArg ms, "-i", mp, "-filter_complex"]
          ++ musicFilter mv d :: (["-map", "0:v:0", "-map", "[a]"] ++ baseVideoArgs fm ++
          ["-shortest", "-c:v", "libx264", "-preset", "veryfast", "-crf", "20", "-c:a", "aac",
            "-movflags", "+faststart", out])) out ∧
    mixFilter mv = "[1:a]volume=" ++ numberToString (volumeValue mv)
      ++ "[ma];[0:a][ma]amix=inputs=2:duration=first:dropout_transition=2[a]" ∧
    buildPlan out input fm "music+original" mu ms mv d mp
      = buildPlan out input fm "music+original" mu ms mv d' mp ∧
    buildPlan out input "environment" "music+original" mu "5" "0.3" d mp
      = .built ["-y", "-i", input, "-ss", "5", "-i", mp, "-filter_complex",
          "[1:a]volume=0.3[ma];[0:a][ma]amix=inputs=2:duration=first:dropout_transition=2[a]",
          "-map", "0:v:0", "-map", "[a]", "-shortest", "-c:v", "libx264", "-preset",
          "veryfast", "-crf", "20", "-c:a", "aac", "-movflags", "+faststart", out] out ∧
    (∀ (w : World) (files : List String) (req : Request),
      req.audioMode = "music+original" → req.inputFile ≠ "" → req.muxUploadUrl ≠ "" →
      req.musicUrl ≠ "" → w.download = .done →
      Effect.ffmpeg (["-y", "-i", req.inputFile, "-ss", musicStartArg req.musicStart, "-i",
          newMusicPath w, "-filter_complex"] ++ mixFilter req.musicVolume ::
          (["-map", "0:v:0", "-map", "[a]"] ++ baseVideoArgs req.facingMode ++
          ["-shortest", "-c:v", "libx264", "-preset", "veryfast", "-crf", "20", "-c:a", "aac",
            "-movflags", "+faststart", newOutputPath w]))
        ∈ (processUpload w files req).effects) := by
  have hss : musicStartArg "5" = "5" := by decide
  have hvol : mixFilter "0.3"
      = "[1:a]volume=0.3[ma];[0:a][ma]amix=inputs=2:duration=first:dropout_transition=2[a]" := by
    decide
  refine ⟨by rw [buildPlan_mix]; simp, by rw [buildPlan_music]; simp, rfl,
    by rw [buildPlan_mix, buildPlan_mix], ?_, ?_⟩
  · rw [buildPlan_mix, hss, hvol]
    simp [baseVideoArgs]
  · intro w files req ham h1 h2 h3 hd
    rw [processUpload_ffmpeg w files req h1 h2 (fun h => h3 h.2)]
    refine ⟨fun _ => hd, ?_, ?_⟩
    · simp [shouldUploadOnly, ham]
    · rw [ham]
      simp only [needsMusic, decide_True, Bool.or_true, if_true]
      rw [buildPlan_mix]
      simp

/-- C8: for `audioMode = 'mute'` the plan has the uploaded video as only
input, maps `0:v:0`, drops audio with `-an`, and re-encodes with libx264 and
`-vf hflip` exactly when `facingMode = 'user'`, copying the video otherwise;
the handler never downloads music for such a request, whatever `musicUrl` is,
and runs ffmpeg with this list and no other. -/
theorem mute_plan (out input fm mu ms mv mp : String) (d : Option JSNum) :
    buildPlan out input fm "mute" mu ms mv d mp
      = .built
        (if fm = "user" then
          ["-y", "-i", input, "-vf", "hflip", "-map", "0:v:0", "-an", "-c:v", "libx264",
            "-preset", "veryfast", "-crf", "20", "-movflags", "+faststart", out]
        else
          ["-y", "-i", input, "-map", "0:v:0", "-an", "-c:v", "copy", "-movflags",
            "+faststart", out]) out ∧
    (∀ (w : World) (files : List String) (req : Request), req.audioMode = "mute" →
      (∀ u p, Effect.download u p ∉ (processUpload w files req).effects) ∧
      (∀ a, Effect.ffmpeg a ∈ (processUpload w files req).effects →
        a = (if req.facingMode = "user" then
          ["-y", "-i", req.inputFile, "-vf", "hflip", "-map", "0:v:0", "-an", "-c:v",
            "libx264", "-preset", "veryfast", "-crf", "20", "-movflags", "+faststart",
            newOutputPath w]
        else
          ["-y", "-i", req.inputFile, "-map", "0:v:0", "-an", "-c:v", "copy", "-movflags",
            "+faststart", newOutputPath w])) ∧
      (req.inputFile ≠ "" → req.muxUploadUrl ≠ "" →
        Effect.ffmpeg (if req.facingMode = "user" then
          ["-y", "-i", req.inputFile, "-vf", "hflip", "-map", "0:v:0", "-an", "-c:v",
            "libx264", "-preset", "veryfast", "-crf", "20", "-movflags", "+faststart",
            newOutputPath w]
        else
          ["-y", "-i", req.inputFile, "-map", "0:v:0", "-an", "-c:v", "copy", "-movflags",
            "+faststart", newOutputPath w]) ∈ (processUpload w files req).effects)) := by
  refine ⟨buildPlan_mute out input fm mu ms mv mp d, ?_⟩
  intro w files req ham
  have hnm : needsMusic req.audioMode = false := by simp [needsMusic, ham]
  have hup : shouldUploadOnly req.facingMode req.audioMode req.musicUrl = false := by
    simp [shouldUploadOnly, ham]
  by_cases hearly : req.inputFile = "" ∨ req.muxUploadUrl = ""
  · have he := (processUpload_early w files req
      (hearly.elim Or.inl (fun h => Or.inr (Or.inl h)))).2.1
    refine ⟨fun u p => by simp [he], fun a ha => by simp [he] at ha, fun h1 h2 => ?_⟩
    exact absurd hearly (by tauto)
  · have h1 : req.inputFile ≠ "" := fun h => hearly (Or.inl h)
    have h2 : req.muxUploadUrl ≠ "" := fun h => hearly (Or.inr h)
    have h3 : ¬(needsMusic req.audioMode = true ∧ req.musicUrl = "") := by simp [hnm]
    have hff := processUpload_ffmpeg w files req h1 h2 h3
    refine ⟨fun u p hd => ?_, fun a ha => ?_, fun _ _ => ?_⟩
    · have := ((processUpload_download w files req h1 h2 h3 u p).1 hd).1
      rw [hnm] at this
      cases this
    · have := ((hff a).1 ha).2.2
      rw [ham, buildPlan_mute] at this
      simpa using this.symm
    · rw [hff]
      refine ⟨by simp [hnm], hup, ?_⟩
      rw [ham, buildPlan_mute]

/-- C9: for `facingMode = 'user'` and `audioMode = 'original'` the argument
list is `-y -i input -vf hflip -c:v libx264 -preset veryfast -crf 20 -c:a copy
-movflags +faststart output`, both in the `MirrorOnly` branch (no `musicUrl`)
and in the `original` branch of `FullTransform` (`musicUrl` given), and the
handler runs ffmpeg with it; `original` without flip inside `FullTransform`
copies both streams with no video filter. -/
theorem mirror_args (out input mu ms mv mp : String) (d : Option JSNum) :
    buildPlan out input "user" "original" mu ms mv d mp
      = .built ["-y", "-i", input, "-vf", "hflip", "-c:v", "libx264", "-preset", "veryfast",
          "-crf", "20", "-c:a", "copy", "-movflags", "+faststart", out] out ∧
    planCase "user" "original" "" = .MirrorOnly ∧
    (mu ≠ "" → planCase "user" "original" mu = .FullTransform) ∧
    (∀ fm : String, fm ≠ "user" → planCase fm "original" mu = .FullTransform →
      buildPlan out input fm "original" mu ms mv d mp
        = .built ["-y", "-i", input, "-c:v", "copy", "-c:a", "copy", "-movflags",
            "+faststart", out] out) ∧
    (∀ (w : World) (files : List String) (req : Request),
      req.facingMode = "user" → req.audioMode = "original" →
      req.inputFile ≠ "" → req.muxUploadUrl ≠ "" →
      Effect.ffmpeg ["-y", "-i", req.inputFile, "-vf", "hflip", "-c:v", "libx264", "-preset",
          "veryfast", "-crf", "20", "-c:a", "copy", "-movflags", "+faststart", newOutputPath w]
        ∈ (processUpload w files req).effects) := by
  refine ⟨buildPlan_user_original out input mu ms mv mp d, by decide, ?_, ?_, ?_⟩
  · intro h
    simp [planCase, shouldUploadOnly, shouldMirrorOnly, h]
  · intro fm hfm hpc
    unfold buildPlan
    rw [hpc]
    simp [fullTransform, hfm]
  · intro w files req hfm ham h1 h2
    have hnm : needsMusic req.audioMode = false := by simp [needsMusic, ham]
    rw [processUpload_ffmpeg w files req h1 h2 (by simp [hnm])]
    refine ⟨by simp [hnm], by simp [shouldUploadOnly, hfm], ?_⟩
    rw [hfm, ham]
    exact buildPlan_user_original _ _ _ _ _ _ _


/-- C10 as the code has it: in the `music` and `music+original` branches the
text after `-ss` is `String(parseFloat(musicStart) || 0)`, in the plan and in
every ffmpeg run of the handler.  It is `0` when `parseFloat(musicStart)` is
`NaN` (as for `abc` and for the empty string); a text that only begins with
a number gives that number (`5abc` gives `5`, `12 seconds` gives `12`,
`1e5.5` gives `100000`).  Otherwise the offset is the parsed number itself,
with no clamping: a finite parsed value, negative ones included, is passed
on unchanged, and so are `Infinity` and `-Infinity`. -/
theorem music_start_offset (out input fm mu ms mv mp : String) (d : Option JSNum) :
    (∃ rest, buildPlan out input fm "music" mu ms mv d mp
      = .built (["-y", "-i", input, "-ss", numberToString (jsOrZero (parseFloat ms)), "-i", mp]
          ++ rest) out) ∧
    (∃ rest, buildPlan out input fm "music+original" mu ms mv d mp
      = .built (["-y", "-i", input, "-ss", numberToString (jsOrZero (parseFloat ms)), "-i", mp]
          ++ rest) out) ∧
    (parseFloat ms = .nan →
      jsOrZero (parseFloat ms) = .fin 0 ∧ numberToString (jsOrZero (parseFloat ms)) = "0") ∧
    (∀ q : ℚ, parseFloat ms = .fin q → jsOrZero (parseFloat ms) = .fin q) ∧
    (parseFloat ms = .posInf → jsOrZero (parseFloat ms) = .posInf) ∧
    (parseFloat ms = .negInf → jsOrZero (parseFloat ms) = .negInf) ∧
    (musicStartArg "abc" = "0" ∧ musicStartArg "7.5" = "7.5" ∧ musicStartArg "-5" = "-5") ∧
    (parseFloat "abc" = .nan ∧ parseFloat "" = .nan ∧ musicStartArg "" = "0" ∧
      parseFloat "5abc" = .fin 5 ∧ musicStartArg "5abc" = "5" ∧
      musicStartArg "12 seconds" = "12" ∧ musicStartArg "1e5.5" = "100000") ∧
    (∀ (w : World) (files : List String) (req : Request),
      (req.audioMode = "music" ∨ req.audioMode = "music+original") →
      ∀ a, Effect.ffmpeg a ∈ (processUpload w files req).effects →
        ∃ rest, a = ["-y", "-i", req.inputFile, "-ss",
          numberToString (jsOrZero (parseFloat req.musicStart)), "-i", newMusicPath w]
            ++ rest) := by
  refine ⟨⟨_, by rw [buildPlan_music]; rfl⟩, ⟨_, by rw [buildPlan_mix]; rfl⟩, ?_, ?_, ?_, ?_,
    by decide, by decide, ?_⟩
  · intro h
    rw [h]
    exact ⟨rfl, by decide⟩
  · intro q h
    rw [h]
    by_cases hq : q = 0
    · simp [jsOrZero, hq]
    · simp [jsOrZero, hq]
  · intro h; rw [h]; rfl
  · intro h; rw [h]; rfl
  · intro w files req ham a ha
    have hnm : needsMusic req.audioMode = true := (needsMusic_iff _).2 ham
    by_cases hearly : req.inputFile = "" ∨ req.muxUploadUrl = "" ∨
        (needsMusic req.audioMode = true ∧ req.musicUrl = "")
    · rw [(processUpload_early w files req hearly).2.1] at ha
      cases ha
    · have h1 : req.inputFile ≠ "" := fun h => hearly (Or.inl h)
      have h2 : req.muxUploadUrl ≠ "" := fun h => hearly (Or.inr (Or.inl h))
      have h3 : ¬(needsMusic req.audioMode = true ∧ req.musicUrl = "") :=
        fun h => hearly (Or.inr (Or.inr h))
      have hb := ((processUpload_ffmpeg w files req h1 h2 h3 a).1 ha).2.2
      rw [hnm] at hb
      simp only [if_true] at hb
      rcases ham with ham | ham
      · rw [ham, buildPlan_music] at hb
        injection hb with hargs _
        exact ⟨_, by rw [← hargs]; rfl⟩
      · rw [ham, buildPlan_mix] at hb
        injection hb with hargs _
        exact ⟨_, by rw [← hargs]; rfl⟩

/-- Counterexample to C10 as stated: `musicStart = '-5'` parses to `-5`, which
is truthy, so the handler runs ffmpeg with `-ss -5` in front of the music
input: a negative seek offset.  And `musicStart = '5abc'`, which is not a
number, parses to `5` and gives `-ss 5`, not `0`. -/
theorem negative_music_start :
    jsOrZero (parseFloat "-5") = .fin (-5) ∧ (-5 : ℚ) < 0 ∧
    parseFloat "5abc" = .fin 5 ∧ musicStartArg "5abc" = "5" ∧
    Effect.ffmpeg ["-y", "-i", "/tmp/uploads/1700000000000-clip.mp4", "-ss", "-5", "-i",
        "/tmp/uploads/music-1700000000001.mp3", "-filter_complex",
        "[1:a]volume=1[ma];[ma]atrim=0:12.5,asetpts=N/SR/TB[a]", "-map", "0:v:0", "-map",
        "[a]", "-shortest", "-c:v", "libx264", "-preset", "veryfast", "-crf", "20", "-c:a",
        "aac", "-movflags", "+faststart", "/tmp/uploads/output-1700000000002.mp4"]
      ∈ (processUpload sampleWorld ["/tmp/uploads/1700000000000-clip.mp4"]
          (sampleRequest "environment" "music" "https://cdn/m.mp3" "-5" "1"
            "https://h/up/ID?x=y")).effects := by
  decide


end Feednly
